import Mathlib

/-!
Verification of the UVM assembler front end (parser + type checker).

This file is a shallow embedding of the repository's parser/type-checker
pipeline (`parser.cpp`, `ast.hpp`, `asm/encoding.hpp`).  Pure C++ functions
become Lean functions; in-place mutation of AST nodes (numeric `DataType`
tags, `Opcode`/`EncodingFlags`) is modelled by returning updated nodes;
diagnostics printed through `printError`/`printTokenError`/`std::cout` are
modelled as explicit lists of message strings.  Machine integers are
modelled as `Nat` with explicit `2^64` arithmetic where the code casts
between `uint64_t` and `int64_t`; C++ `double` values are modelled as exact
rationals (`ℚ`), which agrees with IEEE comparisons on finite doubles.
-/

/-! ## Token stream

Modelled from the spec: the scanner (`token.hpp` / `scanner.cpp`) is not part
of the sources; §6 of the spec gives the token contract: each token carries
`{kind, byte index, byte size, line row, line col, tag}`, where `tag` is
pre-resolved for register tokens (register id), type tokens (UVM type code)
and instruction tokens (instruction definition index). -/

inductive TokenType where
  | IDENTIFIER
  | INSTRUCTION
  | TYPE_INFO
  | REGISTER_DEFINITION
  | INTEGER_NUMBER
  | FLOAT_NUMBER
  | STRING
  | LABEL_DEF
  | LEFT_CURLY_BRACKET
  | RIGHT_CURLY_BRACKET
  | LEFT_SQUARE_BRACKET
  | RIGHT_SQUARE_BRACKET
  | PLUS_SIGN
  | MINUS_SIGN
  | ASTERISK
  | COLON
  | COMMA
  | EQUALS_SIGN
  | EOL
  | END_OF_FILE
deriving DecidableEq, Repr

structure Token where
  /-- the token kind; `Type` in the C++ source (a reserved word in Lean) -/
  Ty : TokenType
  Index : Nat
  Size : Nat
  LineRow : Nat
  LineCol : Nat
  Tag : Nat
deriving DecidableEq, Repr

/-- The clamped token returned by `eatToken`/`peekToken` once the cursor is at
the end.  Per the scanner contract (spec §5/§6) a token stream ends with an
`EndOfFile` token and both cursor operations keep returning it; we model the
remaining stream as a `List Token` (the suffix after the cursor) and the
clamped read as this EOF token. -/
def EOF_TOKEN : Token := ⟨TokenType.END_OF_FILE, 0, 0, 0, 0, 0⟩

/-- `Parser::eatToken`: returns the token at the cursor and advances, clamping
at the end of the stream. -/
def eat (ts : List Token) : Token × List Token :=
  match ts with
  | [] => (EOF_TOKEN, [])
  | t :: r => (t, r)

/-- `Parser::peekToken`: returns the token at the cursor without advancing. -/
def peek (ts : List Token) : Token :=
  match ts with
  | [] => EOF_TOKEN
  | t :: _ => t

/-! ## Source view

`SourceFile` offers substring and character lookup by byte index (spec §6);
we model the source as a `String`. -/

/-- `Src->getSubStr(index, size, out)`. -/
def getSubStr (src : String) (index size : Nat) : String :=
  String.mk ((src.toList.drop index).take size)

/-- `Src->getChar(index, out)`. -/
def getChar (src : String) (index : Nat) : Char :=
  src.toList.getD index (Char.ofNat 0)

/-! ## Constants from `asm.hpp`

`asm.hpp` itself is not among the sources; the values below are modelled from
the spec.  Spec §6: the UVM type codes are "stable small integers ... the
parser never inspects the concrete values, only compares them", so any six
distinct codes are faithful; we use the codes of the surrounding VM.
Spec §6 gives the signature flags verbatim: `ENCODE_TYPE = 1`,
`TYPE_VARIANTS = 2`.  Spec §9 implies the section permissions are distinct
bits (their pairwise AND is zero). -/

def UVM_TYPE_I8 : Nat := 0x1
def UVM_TYPE_I16 : Nat := 0x2
def UVM_TYPE_I32 : Nat := 0x3
def UVM_TYPE_I64 : Nat := 0x4
def UVM_TYPE_F32 : Nat := 0xF0
def UVM_TYPE_F64 : Nat := 0xF1

def INSTR_FLAG_ENCODE_TYPE : Nat := 1
def INSTR_FLAG_TYPE_VARIANTS : Nat := 2

/-- Modelled from the spec: `SEC_PERM_*` come from the missing `asm.hpp`;
§9 notes that combining them with bitwise AND yields zero, i.e. they are
distinct single bits. -/
def SEC_PERM_READ : Nat := 1
def SEC_PERM_WRITE : Nat := 2
def SEC_PERM_EXECUTE : Nat := 4

/-- Register-offset layout bytes (`ast.hpp`). -/
def RO_LAYOUT_NEGATIVE : Nat := 0x80
def RO_LAYOUT_IR : Nat := 0x4F
def RO_LAYOUT_IR_INT : Nat := 0x2F
def RO_LAYOUT_IR_IR_INT : Nat := 0x1F

inductive RegisterType where
  | INTEGER
  | FLOAT
deriving DecidableEq, Repr

/-- `getRegisterType` (parser.cpp): ids `0x00..0x14` except `0x04` are integer
registers, everything else is a float register. -/
def getRegisterType (regId : Nat) : RegisterType :=
  if regId ≤ 0x14 ∧ regId ≠ 0x4 then RegisterType.INTEGER else RegisterType.FLOAT

/-! ## Numeric range checks (parser.cpp) -/

/-- `checkIntWidth` (parser.cpp).  `num` is the `uint64_t` bit pattern.  When
`isSigned` the code runs `num = std::abs(static_cast<int64_t>(num))`: for a
bit pattern `≥ 2^63` (a negative `int64_t`) this yields `2^64 - num` (also
for `2^63` itself, where the C++ `std::abs` overflows and in practice
returns the value back). -/
def checkIntWidth (num : Nat) (type : Nat) (isSigned : Bool) : Bool :=
  let num := if isSigned then (if num < 2 ^ 63 then num else 2 ^ 64 - num) else num
  if type = UVM_TYPE_I8 then num ≤ 0xFF
  else if type = UVM_TYPE_I16 then num ≤ 0xFFFF
  else if type = UVM_TYPE_I32 then num ≤ 0xFFFFFFFF
  else if type = UVM_TYPE_I64 then true
  else false

/-- `FLT_MAX` as an exact rational: `(2^24 - 1) * 2^104`. -/
def FLT_MAX : ℚ := (2 ^ 24 - 1) * 2 ^ 104

/-- `DBL_MAX` as an exact rational: `(2^53 - 1) * 2^971`. -/
def DBL_MAX : ℚ := (2 ^ 53 - 1) * 2 ^ 971

/-- `checkFloatWidth` (parser.cpp).  Note the source compares the signed value
itself (`num <= FLT_MAX`), without taking the absolute value. -/
def checkFloatWidth (num : ℚ) (type : Nat) : Bool :=
  if type = UVM_TYPE_F32 then decide (num ≤ FLT_MAX)
  else if type = UVM_TYPE_F64 then decide (num ≤ DBL_MAX)
  else false

/-! ## String-to-number conversions (parser.cpp) -/

def isDecDigit (c : Char) : Bool := '0' ≤ c ∧ c ≤ '9'

def isHexDigit (c : Char) : Bool :=
  isDecDigit c ∨ ('a' ≤ c ∧ c ≤ 'f') ∨ ('A' ≤ c ∧ c ≤ 'F')

def digitVal (c : Char) : Nat :=
  if isDecDigit c then c.toNat - '0'.toNat
  else if 'a' ≤ c ∧ c ≤ 'f' then c.toNat - 'a'.toNat + 10
  else if 'A' ≤ c ∧ c ≤ 'F' then c.toNat - 'A'.toNat + 10
  else 0

def digitsVal (base : Nat) (cs : List Char) : Nat :=
  cs.foldl (fun acc c => acc * base + digitVal c) 0

/-- The semantics of `std::stoull(str, 0, base)` on the strings the parser
feeds it: an optional sign, for base 16 an optional `0x`/`0X` prefix, then a
maximal run of digits.  A magnitude beyond `2^64 - 1` throws `out_of_range`
(modelled as `none`); a negative sign wraps the value modulo `2^64`.  A
string without digits throws `invalid_argument`, which `strToInt` does not
catch (the scanner only produces digit strings); we model it as `none` as
well. -/
def stoullModel (s : String) (base : Nat) : Option Nat :=
  let cs := s.toList
  let (neg, cs) :=
    match cs with
    | '-' :: r => (true, r)
    | '+' :: r => (false, r)
    | _ => (false, cs)
  let cs :=
    if base = 16 then
      match cs with
      | '0' :: 'x' :: r => r
      | '0' :: 'X' :: r => r
      | _ => cs
    else cs
  let isDig : Char → Bool := if base = 16 then isHexDigit else isDecDigit
  let digs := cs.takeWhile isDig
  if digs.isEmpty then none
  else
    let m := digitsVal base digs
    if m ≥ 2 ^ 64 then none
    else some (if neg then (2 ^ 64 - m) % 2 ^ 64 else m)

/-- `strToInt` (parser.cpp): base 16 when the string starts with `0x` and has
at least 3 characters, else base 10; returns `none` when the conversion
fails (value does not fit 64 bits). -/
def strToInt (str : String) : Option Nat :=
  let base :=
    if str.length ≥ 3 ∧ str.toList.getD 0 ' ' = '0' ∧ str.toList.getD 1 ' ' = 'x'
    then 16 else 10
  stoullModel str base

/-- `strToFP` (parser.cpp), which delegates to `std::stod`.  Modelled from the
spec: exponent parsing is out of scope (§1 non-goals); we parse
`[sign] digits [. digits]` exactly into a rational.  `std::stod` throws
`invalid_argument` for digit-less input and `out_of_range` for magnitudes
beyond `DBL_MAX`; both are caught in the source and modelled as `none`. -/
def strToFP (str : String) : Option ℚ :=
  let cs := str.toList
  let (neg, cs) :=
    match cs with
    | '-' :: r => (true, r)
    | '+' :: r => (false, r)
    | _ => (false, cs)
  let ip := cs.takeWhile isDecDigit
  let rest := cs.dropWhile isDecDigit
  let fp :=
    match rest with
    | '.' :: r => r.takeWhile isDecDigit
    | _ => []
  if ip.isEmpty ∧ fp.isEmpty then none
  else
    let q : ℚ := (digitsVal 10 ip : ℚ) + (digitsVal 10 fp : ℚ) / (10 ^ fp.length : ℚ)
    let q := if neg then -q else q
    if |q| > DBL_MAX then none else some q

/-- `Parser::parseStringEscape` (parser.cpp): strips the surrounding quotes
and expands the escapes `\t \v \0 \b \f \n \r \" \\`; an unknown escape
terminates the expansion, dropping the remainder. -/
def escapeChar (p : Char) : Option Char :=
  if p = 't' then some (Char.ofNat 0x09)
  else if p = 'v' then some (Char.ofNat 0x0B)
  else if p = '0' then some (Char.ofNat 0x00)
  else if p = 'b' then some (Char.ofNat 0x08)
  else if p = 'f' then some (Char.ofNat 0x0C)
  else if p = 'n' then some (Char.ofNat 0x0A)
  else if p = 'r' then some (Char.ofNat 0x0D)
  else if p = '"' then some (Char.ofNat 0x22)
  else if p = '\\' then some (Char.ofNat 0x5C)
  else none

/-- The loop of `parseStringEscape`: the list is the input from the cursor on,
still including the closing quote, which is never copied (the C++ loop stops
at `size - 1`). -/
def escapeLoop : List Char → List Char
  | [] => []
  | [_] => []
  | c :: p :: rest =>
    if c = '\\' then
      match escapeChar p with
      | some e => e :: escapeLoop rest
      | none => []
    else c :: escapeLoop (p :: rest)

def parseStringEscape (inStr : String) : String :=
  if inStr.length = 2 then "" else String.mk (escapeLoop (inStr.toList.drop 1))

/-! ## AST data model (`ast.hpp`)

The C++ AST is a class hierarchy under `ASTNode`; instruction parameters are
drawn from a closed set of variants (`TypeInfo`, `RegisterId`,
`RegisterOffset`, `Identifier`, `ASTInt`, `ASTFloat`), which we model as one
inductive.  Source-position headers (`Index`, `Size`, `LineRow`, `LineCol`)
only feed diagnostics and are omitted; diagnostics are modelled by their
message text. -/

/-- `RegisterOffset` (ast.hpp).  `Immediate` models the `ROInt` union: the
`U32` member for the `<iR> ± <i32>` layout, the `U16` member for the
`<iR> ± <iR> * <i16>` layout (the parser writes exactly one of them). -/
structure RegisterOffset where
  Layout : Nat := 0
  Base : Option Nat := none
  Offset : Option Nat := none
  Immediate : Nat := 0
  Var : Option String := none
deriving DecidableEq, Repr

/-- An instruction parameter node.  `intNum` carries the `uint64_t` bit
pattern produced by `strToInt` plus the `IsSigned` flag; `DataType` is `0`
until the type checker assigns it. -/
inductive ASTParam where
  | typeInfo (DataType : Nat)
  | registerId (Id : Nat)
  | regOffset (ro : RegisterOffset)
  | identifier (Name : String)
  | intNum (Num : Nat) (IsSigned : Bool) (DataType : Nat)
  | floatNum (Num : ℚ) (DataType : Nat)
deriving DecidableEq, Repr

/-- `Instruction` (ast.hpp): `Opcode` and `EncodingFlags` are initialised to
`0` and assigned by the type checker. -/
structure Instruction where
  Name : String
  ASMDefIndex : Nat
  Params : List ASTParam
  Opcode : Nat := 0
  EncodingFlags : Nat := 0
deriving DecidableEq, Repr

/-- A node of the Code section body: `LabelDef` or `Instruction`. -/
inductive CodeNode where
  | labelDef (Name : String)
  | instr (i : Instruction)
deriving DecidableEq, Repr

/-- The value of a variable declaration (`ASTString`/`ASTInt`/`ASTFloat`). -/
inductive VarVal where
  | str (Val : String)
  | int (Num : Nat) (IsSigned : Bool)
  | flt (Num : ℚ)
deriving DecidableEq, Repr

/-- `ASTVariable` (ast.hpp): identifier, declared type, value. -/
structure ASTVariable where
  Id : String
  DataType : Nat
  Val : VarVal
deriving DecidableEq, Repr

/-- `ASTSectionType` (ast.hpp). -/
inductive ASTSectionType where
  | STATIC
  | GLOBAL
  | CODE
deriving DecidableEq, Repr

/-- `ASTFileNode` (ast.hpp): the optional Static/Global sections carry
variable declarations; the Code section body carries labels and
instructions.  `typeCheck` dereferences `SecCode` unconditionally (the
parser guarantees it exists), so we model it as a plain list. -/
structure ASTFileNode where
  SecStatic : Option (List ASTVariable) := none
  SecGlobal : Option (List ASTVariable) := none
  SecCode : List CodeNode := []
deriving DecidableEq, Repr

/-- `VarDeclaration` (missing `asm.hpp`); the fields the parser uses are the
identifier and the section-permission byte. -/
structure VarDeclaration where
  Id : String
  SecPerm : Nat
deriving DecidableEq, Repr

/-! ## Instruction definition table (`asm/encoding.hpp`) -/

/-- `InstrParamType` (missing `asm.hpp`; the constructors are those used by
`encoding.hpp` and `parser.cpp`). -/
inductive InstrParamType where
  | INT_TYPE
  | FLOAT_TYPE
  | INT_REG
  | FLOAT_REG
  | REG_OFFSET
  | INT_NUM
  | FLOAT_NUM
  | LABEL_ID
  | SYS_INT
deriving DecidableEq, Repr

/-- `TypeVariant` (missing `asm.hpp`): a UVM type code paired with the opcode
of that type's variant. -/
structure TypeVariant where
  VType : Nat
  Opcode : Nat
deriving DecidableEq, Repr

/-- `InstrParamList` (missing `asm.hpp`): one legal signature — base opcode,
encoding-flags byte, ordered parameter categories, optional type-variant
table. -/
structure InstrParamList where
  Opcode : Nat
  Flags : Nat
  Params : List InstrParamType
  OpcodeVariants : List TypeVariant
deriving DecidableEq, Repr

/-- `InstrDefNode` (missing `asm.hpp`): a node of the per-mnemonic signature
trie walked by `typeCheckInstrParams`; it carries the operand category of
the edge leading to it, its children, and the signature attached to it when
some signature's parameter list ends here. -/
inductive InstrDefNode where
  | mk (ipType : InstrParamType) (Children : List InstrDefNode)
      (ParamList : Option InstrParamList)

def InstrDefNode.ipType : InstrDefNode → InstrParamType
  | .mk t _ _ => t

def InstrDefNode.Children : InstrDefNode → List InstrDefNode
  | .mk _ c _ => c

def InstrDefNode.ParamList : InstrDefNode → Option InstrParamList
  | .mk _ _ p => p

/-- Modelled from the spec: the builder that compiles `INSTR_ASM_DEFS` into
the tries handed to the `Parser` constructor is not among the sources.
Spec §4.2/§9: the trie branches on the i-th operand category; a node
carries the resolved signature when a signature ends there; zero-operand
signatures sit at the root.  Children appear in order of first use by the
signature list.  `trieInsert` adds one signature path. -/
def trieInsert : InstrDefNode → List InstrParamType → InstrParamList → InstrDefNode
  | .mk t cs _, [], sig => .mk t cs (some sig)
  | .mk t cs pl, p :: rest, sig =>
    if cs.any (fun c => c.ipType = p) then
      .mk t (cs.map (fun c => if c.ipType = p then trieInsert c rest sig else c)) pl
    else
      .mk t (cs ++ [trieInsert (.mk p [] none) rest sig]) pl

/-- Builds the signature trie of one mnemonic from its ordered signature
list. -/
def buildTrie (sigs : List InstrParamList) : InstrDefNode :=
  sigs.foldl (fun n sig => trieInsert n sig.Params sig) (.mk .INT_TYPE [] none)
/-- `Asm::INSTR_NAMES` (encoding.hpp): mnemonic to instruction id. -/
def INSTR_NAMES : List (String × Nat) := [
  ("nop", 0), ("push", 1), ("pop", 2), ("load", 3), ("loadf", 4), ("store", 5), ("storef", 6), ("copy", 7), ("copyf", 8), ("exit", 9), ("call", 10), ("ret", 11), ("sys", 12), ("lea", 13), ("add", 14), ("addf", 15), ("sub", 16), ("subf", 17), ("mul", 18), ("mulf", 19), ("muls", 20), ("div", 21), ("divf", 22), ("divs", 23), ("sqrt", 24), ("mod", 25), ("and", 26), ("or", 27), ("xor", 28), ("not", 29), ("lsh", 30), ("rsh", 31), ("srsh", 32), ("b2l", 33), ("s2l", 34), ("i2l", 35), ("b2sl", 36), ("s2sl", 37), ("i2sl", 38), ("f2d", 39), ("d2f", 40), ("i2f", 41), ("i2d", 42), ("f2i", 43), ("d2i", 44), ("cmp", 45), ("cmpf", 46), ("jmp", 47), ("je", 48), ("jne", 49), ("jgt", 50), ("jlt", 51), ("jge", 52), ("jle", 53)]

/-- `Asm::INSTR_ASM_DEFS` (encoding.hpp): for every instruction id, the
ordered list of legal signatures.  Transcribed verbatim from the generated
header. -/
def INSTR_ASM_DEFS : List (List InstrParamList) := [
  -- 0: nop
  [
    ⟨0xA0, 0, [], []⟩
  ],
  -- 1: push
  [
    ⟨0x01, INSTR_FLAG_TYPE_VARIANTS, [.INT_TYPE, .INT_NUM], [⟨UVM_TYPE_I8, 0x01⟩, ⟨UVM_TYPE_I16, 0x02⟩, ⟨UVM_TYPE_I32, 0x03⟩, ⟨UVM_TYPE_I64, 0x04⟩]⟩,
    ⟨0x05, INSTR_FLAG_ENCODE_TYPE, [.INT_TYPE, .INT_REG], []⟩
  ],
  -- 2: pop
  [
    ⟨0x06, INSTR_FLAG_ENCODE_TYPE, [.INT_TYPE], []⟩,
    ⟨0x07, INSTR_FLAG_ENCODE_TYPE, [.INT_TYPE, .INT_REG], []⟩
  ],
  -- 3: load
  [
    ⟨0x11, INSTR_FLAG_TYPE_VARIANTS, [.INT_TYPE, .INT_NUM, .INT_REG], [⟨UVM_TYPE_I8, 0x11⟩, ⟨UVM_TYPE_I16, 0x12⟩, ⟨UVM_TYPE_I32, 0x13⟩, ⟨UVM_TYPE_I64, 0x14⟩]⟩,
    ⟨0x15, INSTR_FLAG_ENCODE_TYPE, [.INT_TYPE, .REG_OFFSET, .INT_REG], []⟩
  ],
  -- 4: loadf
  [
    ⟨0x16, INSTR_FLAG_TYPE_VARIANTS, [.FLOAT_TYPE, .FLOAT_NUM, .FLOAT_REG], [⟨UVM_TYPE_F32, 0x16⟩, ⟨UVM_TYPE_F64, 0x17⟩]⟩,
    ⟨0x18, INSTR_FLAG_ENCODE_TYPE, [.FLOAT_TYPE, .REG_OFFSET, .FLOAT_REG], []⟩
  ],
  -- 5: store
  [
    ⟨0x08, INSTR_FLAG_ENCODE_TYPE, [.INT_TYPE, .INT_REG, .REG_OFFSET], []⟩
  ],
  -- 6: storef
  [
    ⟨0x09, INSTR_FLAG_ENCODE_TYPE, [.FLOAT_TYPE, .FLOAT_REG, .REG_OFFSET], []⟩
  ],
  -- 7: copy
  [
    ⟨0x21, INSTR_FLAG_TYPE_VARIANTS, [.INT_TYPE, .INT_NUM, .REG_OFFSET], [⟨UVM_TYPE_I8, 0x21⟩, ⟨UVM_TYPE_I16, 0x22⟩, ⟨UVM_TYPE_I32, 0x23⟩, ⟨UVM_TYPE_I64, 0x24⟩]⟩,
    ⟨0x25, INSTR_FLAG_ENCODE_TYPE, [.INT_TYPE, .INT_REG, .INT_REG], []⟩,
    ⟨0x26, INSTR_FLAG_ENCODE_TYPE, [.INT_TYPE, .REG_OFFSET, .REG_OFFSET], []⟩
  ],
  -- 8: copyf
  [
    ⟨0x27, INSTR_FLAG_TYPE_VARIANTS, [.FLOAT_TYPE, .FLOAT_NUM, .REG_OFFSET], [⟨UVM_TYPE_F32, 0x27⟩, ⟨UVM_TYPE_F64, 0x28⟩]⟩,
    ⟨0x29, INSTR_FLAG_ENCODE_TYPE, [.FLOAT_TYPE, .FLOAT_REG, .FLOAT_REG], []⟩,
    ⟨0x2A, INSTR_FLAG_ENCODE_TYPE, [.FLOAT_TYPE, .REG_OFFSET, .REG_OFFSET], []⟩
  ],
  -- 9: exit
  [
    ⟨0x50, 0, [], []⟩
  ],
  -- 10: call
  [
    ⟨0x20, 0, [.LABEL_ID], []⟩
  ],
  -- 11: ret
  [
    ⟨0x30, 0, [], []⟩
  ],
  -- 12: sys
  [
    ⟨0x40, 0, [.SYS_INT], []⟩
  ],
  -- 13: lea
  [
    ⟨0x10, 0, [.REG_OFFSET, .INT_REG], []⟩
  ],
  -- 14: add
  [
    ⟨0x31, INSTR_FLAG_TYPE_VARIANTS, [.INT_TYPE, .INT_REG, .INT_NUM], [⟨UVM_TYPE_I8, 0x31⟩, ⟨UVM_TYPE_I16, 0x32⟩, ⟨UVM_TYPE_I32, 0x33⟩, ⟨UVM_TYPE_I64, 0x34⟩]⟩,
    ⟨0x35, INSTR_FLAG_ENCODE_TYPE, [.INT_TYPE, .INT_REG, .INT_REG], []⟩
  ],
  -- 15: addf
  [
    ⟨0x36, INSTR_FLAG_TYPE_VARIANTS, [.FLOAT_TYPE, .FLOAT_REG, .FLOAT_NUM], [⟨UVM_TYPE_F32, 0x36⟩, ⟨UVM_TYPE_F64, 0x37⟩]⟩,
    ⟨0x38, INSTR_FLAG_ENCODE_TYPE, [.FLOAT_TYPE, .FLOAT_REG, .FLOAT_REG], []⟩
  ],
  -- 16: sub
  [
    ⟨0x41, INSTR_FLAG_TYPE_VARIANTS, [.INT_TYPE, .INT_REG, .INT_NUM], [⟨UVM_TYPE_I8, 0x41⟩, ⟨UVM_TYPE_I16, 0x42⟩, ⟨UVM_TYPE_I32, 0x43⟩, ⟨UVM_TYPE_I64, 0x44⟩]⟩,
    ⟨0x45, INSTR_FLAG_ENCODE_TYPE, [.INT_TYPE, .INT_REG, .INT_REG], []⟩
  ],
  -- 17: subf
  [
    ⟨0x46, INSTR_FLAG_TYPE_VARIANTS, [.FLOAT_TYPE, .FLOAT_REG, .FLOAT_NUM], [⟨UVM_TYPE_F32, 0x46⟩, ⟨UVM_TYPE_F64, 0x47⟩]⟩,
    ⟨0x48, INSTR_FLAG_ENCODE_TYPE, [.FLOAT_TYPE, .FLOAT_REG, .FLOAT_REG], []⟩
  ],
  -- 18: mul
  [
    ⟨0x51, INSTR_FLAG_TYPE_VARIANTS, [.INT_TYPE, .INT_REG, .INT_NUM], [⟨UVM_TYPE_I8, 0x51⟩, ⟨UVM_TYPE_I16, 0x52⟩, ⟨UVM_TYPE_I32, 0x53⟩, ⟨UVM_TYPE_I64, 0x54⟩]⟩,
    ⟨0x55, INSTR_FLAG_ENCODE_TYPE, [.INT_TYPE, .INT_REG, .INT_REG], []⟩
  ],
  -- 19: mulf
  [
    ⟨0x56, INSTR_FLAG_TYPE_VARIANTS, [.FLOAT_TYPE, .FLOAT_REG, .FLOAT_NUM], [⟨UVM_TYPE_F32, 0x56⟩, ⟨UVM_TYPE_F64, 0x57⟩]⟩,
    ⟨0x58, INSTR_FLAG_ENCODE_TYPE, [.FLOAT_TYPE, .FLOAT_REG, .FLOAT_REG], []⟩
  ],
  -- 20: muls
  [
    ⟨0x59, INSTR_FLAG_TYPE_VARIANTS, [.INT_TYPE, .INT_REG, .INT_NUM], [⟨UVM_TYPE_I8, 0x59⟩, ⟨UVM_TYPE_I16, 0x5A⟩, ⟨UVM_TYPE_I32, 0x5B⟩, ⟨UVM_TYPE_I64, 0x5C⟩]⟩,
    ⟨0x5D, INSTR_FLAG_ENCODE_TYPE, [.INT_TYPE, .INT_REG, .INT_REG], []⟩
  ],
  -- 21: div
  [
    ⟨0x61, INSTR_FLAG_TYPE_VARIANTS, [.INT_TYPE, .INT_REG, .INT_NUM], [⟨UVM_TYPE_I8, 0x61⟩, ⟨UVM_TYPE_I16, 0x62⟩, ⟨UVM_TYPE_I32, 0x63⟩, ⟨UVM_TYPE_I64, 0x64⟩]⟩,
    ⟨0x65, INSTR_FLAG_ENCODE_TYPE, [.INT_TYPE, .INT_REG, .INT_REG], []⟩
  ],
  -- 22: divf
  [
    ⟨0x66, INSTR_FLAG_TYPE_VARIANTS, [.FLOAT_TYPE, .FLOAT_REG, .FLOAT_NUM], [⟨UVM_TYPE_F32, 0x66⟩, ⟨UVM_TYPE_F64, 0x67⟩]⟩,
    ⟨0x68, INSTR_FLAG_ENCODE_TYPE, [.FLOAT_TYPE, .FLOAT_REG, .FLOAT_REG], []⟩
  ],
  -- 23: divs
  [
    ⟨0x69, INSTR_FLAG_TYPE_VARIANTS, [.INT_TYPE, .INT_REG, .INT_NUM], [⟨UVM_TYPE_I8, 0x69⟩, ⟨UVM_TYPE_I16, 0x6A⟩, ⟨UVM_TYPE_I32, 0x6B⟩, ⟨UVM_TYPE_I64, 0x6C⟩]⟩,
    ⟨0x6D, INSTR_FLAG_ENCODE_TYPE, [.INT_TYPE, .INT_REG, .INT_REG], []⟩
  ],
  -- 24: sqrt
  [
    ⟨0x86, INSTR_FLAG_ENCODE_TYPE, [.FLOAT_TYPE, .FLOAT_REG], []⟩
  ],
  -- 25: mod
  [
    ⟨0x96, INSTR_FLAG_ENCODE_TYPE, [.INT_TYPE, .INT_REG, .INT_REG], []⟩
  ],
  -- 26: and
  [
    ⟨0x75, INSTR_FLAG_ENCODE_TYPE, [.INT_TYPE, .INT_REG, .INT_REG], []⟩
  ],
  -- 27: or
  [
    ⟨0x85, INSTR_FLAG_ENCODE_TYPE, [.INT_TYPE, .INT_REG, .INT_REG], []⟩
  ],
  -- 28: xor
  [
    ⟨0x95, INSTR_FLAG_ENCODE_TYPE, [.INT_TYPE, .INT_REG, .INT_REG], []⟩
  ],
  -- 29: not
  [
    ⟨0xA5, INSTR_FLAG_ENCODE_TYPE, [.INT_TYPE, .INT_REG], []⟩
  ],
  -- 30: lsh
  [
    ⟨0x76, 0, [.INT_REG, .INT_REG], []⟩
  ],
  -- 31: rsh
  [
    ⟨0x77, 0, [.INT_REG, .INT_REG], []⟩
  ],
  -- 32: srsh
  [
    ⟨0x78, 0, [.INT_REG, .INT_REG], []⟩
  ],
  -- 33: b2l
  [
    ⟨0xB1, 0, [.INT_REG], []⟩
  ],
  -- 34: s2l
  [
    ⟨0xB2, 0, [.INT_REG], []⟩
  ],
  -- 35: i2l
  [
    ⟨0xB3, 0, [.INT_REG], []⟩
  ],
  -- 36: b2sl
  [
    ⟨0xC1, 0, [.INT_REG], []⟩
  ],
  -- 37: s2sl
  [
    ⟨0xC2, 0, [.INT_REG], []⟩
  ],
  -- 38: i2sl
  [
    ⟨0xC3, 0, [.INT_REG], []⟩
  ],
  -- 39: f2d
  [
    ⟨0xB4, 0, [.FLOAT_REG], []⟩
  ],
  -- 40: d2f
  [
    ⟨0xC4, 0, [.FLOAT_REG], []⟩
  ],
  -- 41: i2f
  [
    ⟨0xB5, 0, [.INT_REG, .FLOAT_REG], []⟩
  ],
  -- 42: i2d
  [
    ⟨0xC5, 0, [.INT_REG, .FLOAT_REG], []⟩
  ],
  -- 43: f2i
  [
    ⟨0xB6, 0, [.FLOAT_REG, .INT_REG], []⟩
  ],
  -- 44: d2i
  [
    ⟨0xC6, 0, [.FLOAT_REG, .INT_REG], []⟩
  ],
  -- 45: cmp
  [
    ⟨0xD1, INSTR_FLAG_ENCODE_TYPE, [.INT_TYPE, .INT_REG, .INT_REG], []⟩
  ],
  -- 46: cmpf
  [
    ⟨0xD5, INSTR_FLAG_ENCODE_TYPE, [.FLOAT_TYPE, .FLOAT_REG, .FLOAT_REG], []⟩
  ],
  -- 47: jmp
  [
    ⟨0xE1, 0, [.LABEL_ID], []⟩
  ],
  -- 48: je
  [
    ⟨0xE2, 0, [.LABEL_ID], []⟩
  ],
  -- 49: jne
  [
    ⟨0xE3, 0, [.LABEL_ID], []⟩
  ],
  -- 50: jgt
  [
    ⟨0xE4, 0, [.LABEL_ID], []⟩
  ],
  -- 51: jlt
  [
    ⟨0xE5, 0, [.LABEL_ID], []⟩
  ],
  -- 52: jge
  [
    ⟨0xE6, 0, [.LABEL_ID], []⟩
  ],
  -- 53: jle
  [
    ⟨0xE7, 0, [.LABEL_ID], []⟩
  ]
]

/-- The tries handed to the `Parser` constructor: one per instruction id,
indexed by `Instruction.ASMDefIndex`. -/
def InstrDefs : List InstrDefNode := INSTR_ASM_DEFS.map buildTrie


/-! ## Type checker: instruction signature matching (`Parser::typeCheckInstrParams`)

The C++ walk keeps, per operand, a candidate `nextNode`, the remembered
`TypeInfo*` (`type`), the caller's `labelRefs` vector, and an `error` flag;
the inner `for` loop visits every child of the current trie node in order.
`StepState` is that loop state for one operand; `childVisit` is the body of
the inner loop (the `switch` over `currentNode->Children[n].Type`).

The C++ dereferences the remembered `type` pointer without a null check in
the `INT_NUM`/`FLOAT_NUM` cases and in the type-variant lookup; a run that
would dereference a null `type` is recorded by the `nullDeref` flag (theorem
`C9` below shows it never happens against the generated table). -/

structure StepState where
  nextNode : Option InstrDefNode
  type : Option Nat
  node : ASTParam
  labelRefs : List String
  errors : List String
  errorFlag : Bool
  nullDeref : Bool

/-- One iteration of the inner child loop of `typeCheckInstrParams`
(parser.cpp, the `switch (currentNode->Children[n].Type)`). -/
def childVisit (s : StepState) (child : InstrDefNode) : StepState :=
  match child.ipType with
  | .INT_TYPE =>
    match s.node with
    | .typeInfo dt =>
      if dt ≠ UVM_TYPE_I8 ∧ dt ≠ UVM_TYPE_I16 ∧ dt ≠ UVM_TYPE_I32 ∧ dt ≠ UVM_TYPE_I64 then
        { s with errors := s.errors ++ ["Expected int type found float type"] }
      else { s with type := some dt, nextNode := some child }
    | _ => s
  | .FLOAT_TYPE =>
    match s.node with
    | .typeInfo dt =>
      if dt ≠ UVM_TYPE_F32 ∧ dt ≠ UVM_TYPE_F64 then
        { s with errors := s.errors ++ ["Expected float type found int type"] }
      else { s with type := some dt, nextNode := some child }
    | _ => s
  | .LABEL_ID =>
    match s.node with
    | .identifier nm =>
      { s with labelRefs := s.labelRefs ++ [nm], nextNode := some child }
    | _ => s
  | .INT_REG =>
    match s.node with
    | .registerId id =>
      if getRegisterType id ≠ RegisterType.INTEGER then
        { s with errors := s.errors ++ ["Expected integer register"] }
      else { s with nextNode := some child }
    | _ => s
  | .FLOAT_REG =>
    match s.node with
    | .registerId id =>
      if getRegisterType id ≠ RegisterType.FLOAT then
        { s with errors := s.errors ++ ["Expected float register"] }
      else { s with nextNode := some child }
    | _ => s
  | .REG_OFFSET =>
    match s.node with
    | .regOffset _ => { s with nextNode := some child }
    | _ => s
  | .INT_NUM =>
    match s.node with
    | .intNum v sgn _ =>
      match s.type with
      | none => { s with nullDeref := true, nextNode := some child }
      | some dt =>
        if ¬ checkIntWidth v dt sgn then
          { s with node := .intNum v sgn dt,
                   errors := s.errors ++ ["Integer does not fit into given type"],
                   errorFlag := true, nextNode := some child }
        else { s with node := .intNum v sgn dt, nextNode := some child }
    | _ => s
  | .FLOAT_NUM =>
    match s.node with
    | .floatNum v _ =>
      match s.type with
      | none => { s with nullDeref := true, nextNode := some child }
      | some dt =>
        if ¬ checkFloatWidth v dt then
          { s with node := .floatNum v dt,
                   errors := s.errors ++ ["Float does not fit into given type"],
                   errorFlag := true, nextNode := some child }
        else { s with node := .floatNum v dt, nextNode := some child }
    | _ => s
  | .SYS_INT =>
    match s.node with
    | .intNum v sgn _ =>
      { s with node := .intNum v sgn UVM_TYPE_I8, nextNode := some child }
    | _ => s

/-- The result of walking the parameter list down the trie. -/
structure WalkOut where
  paramList : Option InstrParamList
  finalType : Option Nat
  params : List ASTParam
  labelRefs : List String
  errors : List String
  errorFlag : Bool
  nullDeref : Bool

/-- The outer `for (i ...)` loop of `typeCheckInstrParams`: one step per
operand; `paramList` is read off the node reached by the last operand
(`none` if the walk dead-ends or that node carries no signature). -/
def walk (cur : InstrDefNode) (ty : Option Nat) : List ASTParam → WalkOut
  | [] => ⟨none, ty, [], [], [], false, false⟩
  | p :: rest =>
    let s0 : StepState := ⟨none, ty, p, [], [], false, false⟩
    let s := cur.Children.foldl childVisit s0
    match s.nextNode with
    | none => ⟨none, s.type, s.node :: rest, s.labelRefs, s.errors, s.errorFlag, s.nullDeref⟩
    | some nxt =>
      match rest with
      | [] => ⟨nxt.ParamList, s.type, [s.node], s.labelRefs, s.errors, s.errorFlag, s.nullDeref⟩
      | _ :: _ =>
        let w := walk nxt s.type rest
        ⟨w.paramList, w.finalType, s.node :: w.params, s.labelRefs ++ w.labelRefs,
         s.errors ++ w.errors, s.errorFlag || w.errorFlag, s.nullDeref || w.nullDeref⟩

/-- The result of `typeCheckInstrParams`: the boolean return value, the
(possibly mutated) instruction, the label references appended to the
caller's vector, the diagnostics printed, the null-dereference marker, and
the matched signature with the remembered `TypeInfo` type (exposed for the
statements below). -/
structure TCIOut where
  ok : Bool
  instr : Instruction
  labelRefs : List String
  errors : List String
  nullDeref : Bool
  matched : Option (InstrParamList × Option Nat)

/-- The type-variant lookup of `typeCheckInstrParams` (parser.cpp):
`opcode` starts at `0` and takes the opcode of every variant whose type
matches (the last match wins). -/
def variantLookup (variants : List TypeVariant) (dt : Nat) : Nat :=
  variants.foldl (fun acc v => if v.VType = dt then v.Opcode else acc) 0

/-- `Parser::typeCheckInstrParams` (parser.cpp).  `defs` is the trie table;
the root is `(*InstrDefs)[instr->ASMDefIndex]` (the index is valid for
scanner-produced instructions; out of range would be C++ UB, modelled by a
default empty node). -/
def typeCheckInstrParams (defs : List InstrDefNode) (instr : Instruction) : TCIOut :=
  let root := defs.getD instr.ASMDefIndex (.mk .INT_TYPE [] none)
  if instr.Params.isEmpty then
    if root.Children.isEmpty then
      match root.ParamList with
      | some pl =>
        ⟨true, { instr with Opcode := pl.Opcode, EncodingFlags := pl.Flags },
         [], [], false, some (pl, none)⟩
      | none => ⟨true, instr, [], [], true, none⟩
    else ⟨false, instr, [], ["Expected parameters found none"], false, none⟩
  else
    let w := walk root none instr.Params
    match w.paramList with
    | none =>
      ⟨false, { instr with Params := w.params }, w.labelRefs,
       w.errors ++ ["Error no matching parameter list found for instruction"],
       w.nullDeref, none⟩
    | some pl =>
      if w.errorFlag then
        ⟨false, { instr with Params := w.params }, w.labelRefs, w.errors,
         w.nullDeref, some (pl, w.finalType)⟩
      else if pl.Flags &&& INSTR_FLAG_TYPE_VARIANTS ≠ 0 then
        match w.finalType with
        | none =>
          ⟨true, { instr with Params := w.params, Opcode := 0, EncodingFlags := pl.Flags },
           w.labelRefs, w.errors, true, some (pl, none)⟩
        | some dt =>
          let opc := variantLookup pl.OpcodeVariants dt
          ⟨true, { instr with Params := w.params, Opcode := opc, EncodingFlags := pl.Flags },
           w.labelRefs, w.errors, w.nullDeref, some (pl, some dt)⟩
      else
        ⟨true, { instr with Params := w.params, Opcode := pl.Opcode, EncodingFlags := pl.Flags },
         w.labelRefs, w.errors, w.nullDeref, some (pl, w.finalType)⟩

/-! ## Type checker: variables, references, driver (`Parser::typeCheck`) -/

/-- One iteration of the loop of `Parser::typeCheckVars` (parser.cpp): a
name already in the table is a "Variable redefiniton" error and the variable
is skipped; every collected variable records the section-permission byte
(note the source combines the permissions with bitwise AND). -/
def tcvStep (secType : ASTSectionType)
    (acc : Bool × List VarDeclaration × List String) (var : ASTVariable) :
    Bool × List VarDeclaration × List String :=
  let (valid, decls, errs) := acc
  if decls.any (fun d => d.Id = var.Id) then
    (false, decls, errs ++ ["Variable redefiniton"])
  else
    let perm :=
      match secType with
      | .STATIC => SEC_PERM_READ
      | .GLOBAL => SEC_PERM_READ &&& SEC_PERM_WRITE
      | .CODE => SEC_PERM_READ &&& SEC_PERM_EXECUTE
    (valid, decls ++ [⟨var.Id, perm⟩], errs)

/-- `Parser::typeCheckVars` (parser.cpp): collects the section's variables
into the global variable table by folding `tcvStep` over the section body. -/
def typeCheckVars (varDecls : List VarDeclaration) (secType : ASTSectionType)
    (body : List ASTVariable) : Bool × List VarDeclaration × List String :=
  body.foldl (tcvStep secType) (true, varDecls, [])

/-- `Parser::checkVarRefs` (parser.cpp): every `RegisterOffset.Var` inside an
instruction of the Code section must name a collected variable. -/
def checkVarRefs (varDecls : List VarDeclaration) (codeBody : List CodeNode) :
    Bool × List String :=
  codeBody.foldl
    (fun acc node =>
      match node with
      | .instr i =>
        i.Params.foldl
          (fun acc p =>
            match p with
            | .regOffset ro =>
              match ro.Var with
              | some v =>
                if varDecls.any (fun d => d.Id = v) then acc
                else (false, acc.2 ++ ["Variable reference does not exist"])
              | none => acc
            | _ => acc)
          acc
      | _ => acc)
    (true, [])

/-- The accumulator of the main Code-section walk in `typeCheck`. -/
structure TCAcc where
  labelDefs : List String
  labelRefs : List String
  errors : List String
  flag : Bool
  code : List CodeNode

/-- One step of the main Code-section walk of `typeCheck` (parser.cpp):
label definitions are checked against the label table and always appended;
instructions run through `typeCheckInstrParams` (a failure is recoverable
and the walk continues). -/
def tcStep (defs : List InstrDefNode) (acc : TCAcc) (node : CodeNode) : TCAcc :=
  match node with
  | .labelDef nm =>
    if acc.labelDefs.contains nm then
      ⟨acc.labelDefs ++ [nm], acc.labelRefs,
       acc.errors ++ ["Label is already defined"], true, acc.code ++ [.labelDef nm]⟩
    else
      ⟨acc.labelDefs ++ [nm], acc.labelRefs, acc.errors, acc.flag,
       acc.code ++ [.labelDef nm]⟩
  | .instr i =>
    let o := typeCheckInstrParams defs i
    ⟨acc.labelDefs, acc.labelRefs ++ o.labelRefs, acc.errors ++ o.errors,
     acc.flag || !o.ok, acc.code ++ [.instr o.instr]⟩

/-- The result of `typeCheck`: the boolean return value, every diagnostic in
print order, and the final symbol tables and (mutated) Code body. -/
structure TCOut where
  result : Bool
  errors : List String
  labelDefs : List String
  labelRefs : List String
  varDecls : List VarDeclaration
  code : List CodeNode

/-- The per-section variable stage of `Parser::typeCheck` (parser.cpp): a
missing section contributes nothing, a present one runs `typeCheckVars`. -/
def secVarsStage (decls : List VarDeclaration) (secType : ASTSectionType) :
    Option (List ASTVariable) → Bool × List VarDeclaration × List String
  | none => (true, decls, [])
  | some body => typeCheckVars decls secType body

/-- One iteration of the label-resolution loop of `Parser::typeCheck`
(parser.cpp): an unresolved reference prints "Unresolved label" and marks
the pass failed. -/
def resolveStep (labelDefs : List String) (acc : List String × Bool)
    (r : String) : List String × Bool :=
  if labelDefs.contains r then acc
  else (acc.1 ++ ["Unresolved label"], true)

/-- The `main`-entry scan of `Parser::typeCheck` (parser.cpp). -/
def hasMainLabel (body : List CodeNode) : Bool :=
  body.any fun n =>
    match n with
    | .labelDef nm => nm = "main"
    | _ => false

/-- `Parser::typeCheck` (parser.cpp): collects Static and Global variables,
requires a non-empty Code section containing a `main` label, walks the Code
body (labels and instructions; errors are recoverable), then resolves label
references and register-offset variable references.  Returns `true` iff not
a single error occurred. -/
def typeCheck (defs : List InstrDefNode) (f : ASTFileNode) : TCOut :=
  let s1 := secVarsStage [] .STATIC f.SecStatic
  let s2 := secVarsStage s1.2.1 .GLOBAL f.SecGlobal
  let varsFlag := !s1.1 || !s2.1
  let varsErrs := s1.2.2 ++ s2.2.2
  if f.SecCode.isEmpty then
    ⟨false, varsErrs ++ ["Missing main label"], [], [], s2.2.1, f.SecCode⟩
  else if !hasMainLabel f.SecCode then
    ⟨false, varsErrs ++ ["Missing main entry"], [], [], s2.2.1, f.SecCode⟩
  else
    let w := f.SecCode.foldl (tcStep defs) ⟨[], [], [], false, []⟩
    let res := w.labelRefs.foldl (resolveStep w.labelDefs) (([] : List String), false)
    let vr := checkVarRefs s2.2.1 w.code
    ⟨!(varsFlag || w.flag || res.2 || !vr.1),
     varsErrs ++ w.errors ++ res.1 ++ vr.2,
     w.labelDefs, w.labelRefs, s2.2.1, w.code⟩

/-! ## Parser (`Parser::parseRegOffset`, `Parser::parseSectionCode`,
`Parser::parseSectionVars`)

The parser stops at the first error (spec §7); we model it with `Except`.
A diagnostic carries its message and the offending token. -/

structure PErr where
  msg : String
  tok : Token
deriving DecidableEq, Repr

/-- The `<iR> ± <i32>` tail of `Parser::parseRegOffset` (parser.cpp):
`t3` is the already-eaten integer token, `ts3` the tokens after it; the
closing `]` is checked by peeking before the conversion, and the immediate
must pass `strToInt` and fit 32 bits; the final `eat` consumes the `]`. -/
def roImm32 (src : String) (signBit base : Nat) (t3 : Token) (ts3 : List Token) :
    Except PErr (RegisterOffset × List Token) :=
  if (peek ts3).Ty = .RIGHT_SQUARE_BRACKET then
    match strToInt (getSubStr src t3.Index t3.Size) with
    | none => .error ⟨"Register offset immediate does not fit into 32-bit value", t3⟩
    | some num =>
      if num >>> 32 ≠ 0 then
        .error ⟨"Register offset immediate does not fit into 32-bit value", t3⟩
      else
        .ok ({ Layout := signBit ||| RO_LAYOUT_IR_INT, Base := some base,
               Immediate := num }, (eat ts3).2)
  else
    .error ⟨"Expected closing bracket after immediate offset inside register offset ]", t3⟩

/-- The `<iR> ± <iR> * <i16>` tail of `Parser::parseRegOffset`: `t3` is the
already-eaten offset-register token, `ts3` the tokens after it. -/
def roScaled (src : String) (signBit base : Nat) (t3 : Token) (ts3 : List Token) :
    Except PErr (RegisterOffset × List Token) :=
  if getRegisterType t3.Tag ≠ .INTEGER then
    .error ⟨"Expected integer register as offset", t3⟩
  else
    match ts3 with
    | [] => .error ⟨"Expected * after offset inside register offset", EOF_TOKEN⟩
    | t4 :: ts4 =>
      if t4.Ty ≠ .ASTERISK then
        .error ⟨"Expected * after offset inside register offset", t4⟩
      else
        let t5 := (eat ts4).1
        let ts5 := (eat ts4).2
        match strToInt (getSubStr src t5.Index t5.Size) with
        | none => .error ⟨"Register offset immediate does not fit into 16-bit value", t5⟩
        | some num =>
          if num >>> 16 ≠ 0 then
            .error ⟨"Register offset immediate does not fit into 16-bit value", t5⟩
          else
            let t6 := (eat ts5).1
            let ts6 := (eat ts5).2
            if t6.Ty = .RIGHT_SQUARE_BRACKET then
              .ok ({ Layout := signBit ||| RO_LAYOUT_IR_IR_INT, Base := some base,
                     Offset := some t3.Tag, Immediate := num }, ts6)
            else .error ⟨"Expectd closing bracket after factor", t6⟩

/-- The part of `Parser::parseRegOffset` after a `+`/`-` sign: dispatches on
the next token (immediate or scaled register offset). -/
def roAfterSign (src : String) (signBit base : Nat) (ts2 : List Token) :
    Except PErr (RegisterOffset × List Token) :=
  match ts2 with
  | [] => .error ⟨"Expected register or int number as offset", EOF_TOKEN⟩
  | t3 :: ts3 =>
    if t3.Ty = .INTEGER_NUMBER then roImm32 src signBit base t3 ts3
    else if t3.Ty = .REGISTER_DEFINITION then roScaled src signBit base t3 ts3
    else .error ⟨"Expected register or int number as offset", t3⟩

/-- `Parser::parseRegOffset` (parser.cpp): parses the bracketed
register-offset sub-language after the opening `[` has been consumed and
returns the `RegisterOffset` node plus the remaining tokens.  The body is
split into the stage helpers above, one per grammar alternative. -/
def parseRegOffset (src : String) (ts : List Token) :
    Except PErr (RegisterOffset × List Token) :=
  match ts with
  | [] => .error ⟨"Expected register in register offset", EOF_TOKEN⟩
  | t :: ts1 =>
    if t.Ty = .IDENTIFIER then
      -- variable form "[staticVar]": no layout code, `Var` set
      let ro : RegisterOffset := { Var := some (getSubStr src t.Index t.Size) }
      match ts1 with
      | [] => .error ⟨"Expected closing bracket ] after variable reference", EOF_TOKEN⟩
      | t2 :: ts2 =>
        if t2.Ty ≠ .RIGHT_SQUARE_BRACKET then
          .error ⟨"Expected closing bracket ] after variable reference", t2⟩
        else .ok (ro, ts2)
    else if t.Ty = .REGISTER_DEFINITION then
      if getRegisterType t.Tag ≠ .INTEGER then
        .error ⟨"Expected integer register as base", t⟩
      else
        match ts1 with
        | [] => .error ⟨"Unexpected token in register offset", EOF_TOKEN⟩
        | t2 :: ts2 =>
          if t2.Ty = .RIGHT_SQUARE_BRACKET then
            .ok ({ Layout := RO_LAYOUT_IR, Base := some t.Tag }, ts2)
          else if t2.Ty = .PLUS_SIGN then roAfterSign src 0 t.Tag ts2
          else if t2.Ty = .MINUS_SIGN then roAfterSign src RO_LAYOUT_NEGATIVE t.Tag ts2
          else .error ⟨"Unexpected token in register offset", t2⟩
    else .error ⟨"Expected register in register offset", t⟩

theorem eat_snd_length_le (ts : List Token) : (eat ts).2.length ≤ ts.length := by
  cases ts <;> simp [eat]

theorem roImm32_rest_le (src : String) (signBit base : Nat) (t3 : Token)
    (ts3 : List Token) (ro : RegisterOffset) (rest : List Token)
    (h : roImm32 src signBit base t3 ts3 = .ok (ro, rest)) :
    rest.length ≤ ts3.length := by
  unfold roImm32 at h
  repeat' split at h
  all_goals (try exact Except.noConfusion h)
  injection h with h1; injection h1 with h2 h3; subst h3
  exact eat_snd_length_le ts3

theorem roScaled_rest_le (src : String) (signBit base : Nat) (t3 : Token)
    (ts3 : List Token) (ro : RegisterOffset) (rest : List Token)
    (h : roScaled src signBit base t3 ts3 = .ok (ro, rest)) :
    rest.length ≤ ts3.length := by
  unfold roScaled at h
  repeat' split at h
  all_goals (try exact Except.noConfusion h)
  all_goals dsimp only at h
  all_goals repeat' split at h
  all_goals (try exact Except.noConfusion h)
  all_goals (injection h with h1; injection h1 with h2 h3; subst h3)
  all_goals
    exact le_trans (le_trans (eat_snd_length_le _) (eat_snd_length_le _)) (by simp)

theorem roAfterSign_rest_le (src : String) (signBit base : Nat)
    (ts2 : List Token) (ro : RegisterOffset) (rest : List Token)
    (h : roAfterSign src signBit base ts2 = .ok (ro, rest)) :
    rest.length ≤ ts2.length := by
  unfold roAfterSign at h
  repeat' split at h
  all_goals (try exact Except.noConfusion h)
  · have := roImm32_rest_le _ _ _ _ _ _ _ h
    simp
    omega
  · have := roScaled_rest_le _ _ _ _ _ _ _ h
    simp
    omega

theorem parseRegOffset_rest_le (src : String) (ts : List Token)
    (ro : RegisterOffset) (rest : List Token)
    (h : parseRegOffset src ts = .ok (ro, rest)) :
    rest.length ≤ ts.length := by
  unfold parseRegOffset at h
  repeat' split at h
  all_goals (try exact Except.noConfusion h)
  all_goals try (injection h with h1; injection h1 with h2 h3; subst h3;
                 simp only [List.length_cons]; omega)
  all_goals
    (have hh := roAfterSign_rest_le _ _ _ _ _ _ h
     simp only [List.length_cons] at hh ⊢
     omega)

/-! ## `Parser::parseSectionCode` (parser.cpp)

The C++ function is a loop over the state machine
`{GLOBAL_SCOPE, INSTR_BODY, END}`; we split it into one function per
control point, all accumulating the Code-section body (`acc`).  The C++
pushes an `Instruction` node into the body on creation and then mutates
its parameter list; we append the completed node, which yields the same
body on success (on failure the parse fails as a whole and partial state
is not surfaced, spec §4.1).

`csGlobalScope` is the top of the `GLOBAL_SCOPE` state (skip one EOL);
`csGlobalDispatch` is its dispatch (end on EOF or `}`,
instruction/label/default cases); `csInstrBodyStart` is the entry of
`INSTR_BODY` (the leading `TypeInfo` special case); `csInstrBody` is the
top of the parameter loop (sign handling); `csInstrOperand` is the
`switch` over the operand token; `csInstrAfterParam` is the bottom of the
parameter loop (comma/EOL handling). -/


mutual

def csGlobalScope (src : String) (acc : List CodeNode) (ts : List Token) :
    Except PErr (List CodeNode × List Token) :=
  match ts with
  | [] => .ok (acc, [])
  | t0 :: ts0 =>
    if t0.Ty = .EOL then
      match ts0 with
      | [] => .ok (acc, [])
      | t1 :: ts1 => csGlobalDispatch src acc t1 ts1
    else csGlobalDispatch src acc t0 ts0
  termination_by (ts.length, 4)
  decreasing_by
    all_goals simp_wf
    all_goals
      first
        | (apply Prod.Lex.left
           try simp only [List.length_cons]
           omega)
        | (apply Prod.Lex.right; omega)
        | (have hle := parseRegOffset_rest_le _ _ _ _ hro
           rcases Nat.eq_or_lt_of_le hle with he | hl
           · rw [he]; apply Prod.Lex.right; omega
           · apply Prod.Lex.left; omega)
        | (have hle := eat_snd_length_le ts
           apply Prod.Lex.left
           try simp only [List.length_cons]
           omega)

def csGlobalDispatch (src : String) (acc : List CodeNode) (t : Token)
    (ts : List Token) : Except PErr (List CodeNode × List Token) :=
  if t.Ty = .END_OF_FILE ∨ t.Ty = .RIGHT_CURLY_BRACKET then .ok (acc, ts)
  else if t.Ty = .INSTRUCTION then
    let instr : Instruction := ⟨getSubStr src t.Index t.Size, t.Tag, [], 0, 0⟩
    if (peek ts).Ty = .END_OF_FILE then
      .error ⟨"Unexpected end of file after instruction", t⟩
    else if (peek ts).Ty ≠ .EOL then csInstrBodyStart src acc instr ts
    else csGlobalScope src (acc ++ [.instr instr]) ts
  else if t.Ty = .LABEL_DEF then
    -- the leading '@' is not part of the label name
    let nm := getSubStr src (t.Index + 1) (t.Size - 1)
    if (peek ts).Ty ≠ .EOL then
      .error ⟨"Expected new line after label definition", t⟩
    else csGlobalScope src (acc ++ [.labelDef nm]) (eat ts).2
  else .error ⟨"Unexpected token in function body", t⟩
  termination_by (ts.length + 1, 3)
  decreasing_by
    all_goals simp_wf
    all_goals
      first
        | (apply Prod.Lex.left
           try simp only [List.length_cons]
           omega)
        | (apply Prod.Lex.right; omega)
        | (have hle := parseRegOffset_rest_le _ _ _ _ hro
           rcases Nat.eq_or_lt_of_le hle with he | hl
           · rw [he]; apply Prod.Lex.right; omega
           · apply Prod.Lex.left; omega)
        | (have hle := eat_snd_length_le ts
           apply Prod.Lex.left
           try simp only [List.length_cons]
           omega)

def csInstrBodyStart (src : String) (acc : List CodeNode) (instr : Instruction)
    (ts : List Token) : Except PErr (List CodeNode × List Token) :=
  match ts with
  | [] =>
    -- the eaten token is the clamped EOF: not a TypeInfo, and the operand
    -- switch hits its default case
    .error ⟨"Expected parameter", EOF_TOKEN⟩
  | t :: ts1 =>
    if t.Ty = .TYPE_INFO then
      let instr := { instr with Params := instr.Params ++ [.typeInfo t.Tag] }
      match ts1 with
      | [] => csInstrBody src acc instr EOF_TOKEN []
      | t2 :: ts2 =>
        if t2.Ty = .EOL then csGlobalScope src (acc ++ [.instr instr]) ts2
        else csInstrBody src acc instr t2 ts2
    else csInstrBody src acc instr t ts1
  termination_by (ts.length, 2)
  decreasing_by
    all_goals simp_wf
    all_goals
      first
        | (apply Prod.Lex.left
           try simp only [List.length_cons]
           omega)
        | (apply Prod.Lex.right; omega)
        | (have hle := parseRegOffset_rest_le _ _ _ _ hro
           rcases Nat.eq_or_lt_of_le hle with he | hl
           · rw [he]; apply Prod.Lex.right; omega
           · apply Prod.Lex.left; omega)
        | (have hle := eat_snd_length_le ts
           apply Prod.Lex.left
           try simp only [List.length_cons]
           omega)

def csInstrBody (src : String) (acc : List CodeNode) (instr : Instruction)
    (t : Token) (ts : List Token) : Except PErr (List CodeNode × List Token) :=
  if t.Ty = .PLUS_SIGN ∨ t.Ty = .MINUS_SIGN then
    match ts with
    | [] =>
      -- the next eaten token is the clamped EOF, which is not a numeric
      -- literal
      .error ⟨"Unexpected operator", t⟩
    | t2 :: ts2 =>
      if t2.Ty ≠ .INTEGER_NUMBER ∧ t2.Ty ≠ .FLOAT_NUMBER then
        .error ⟨"Unexpected operator", t⟩
      else csInstrOperand src acc instr (some t) t2 ts2
  else csInstrOperand src acc instr none t ts
  termination_by (ts.length, 2)
  decreasing_by
    all_goals simp_wf
    all_goals
      first
        | (apply Prod.Lex.left
           try simp only [List.length_cons]
           omega)
        | (apply Prod.Lex.right; omega)
        | (have hle := parseRegOffset_rest_le _ _ _ _ hro
           rcases Nat.eq_or_lt_of_le hle with he | hl
           · rw [he]; apply Prod.Lex.right; omega
           · apply Prod.Lex.left; omega)
        | (have hle := eat_snd_length_le ts
           apply Prod.Lex.left
           try simp only [List.length_cons]
           omega)

def csInstrOperand (src : String) (acc : List CodeNode) (instr : Instruction)
    (sign : Option Token) (t : Token) (ts : List Token) :
    Except PErr (List CodeNode × List Token) :=
  match t.Ty with
  | .IDENTIFIER =>
    let nm := getSubStr src t.Index t.Size
    csInstrAfterParam src acc { instr with Params := instr.Params ++ [.identifier nm] } ts
  | .REGISTER_DEFINITION =>
    csInstrAfterParam src acc { instr with Params := instr.Params ++ [.registerId t.Tag] } ts
  | .LEFT_SQUARE_BRACKET =>
    match hro : parseRegOffset src ts with
    | .error e => .error e
    | .ok (ro, rest) =>
      csInstrAfterParam src acc { instr with Params := instr.Params ++ [.regOffset ro] } rest
  | .INTEGER_NUMBER =>
    let numStr := getSubStr src t.Index t.Size
    match sign with
    | some s =>
      if s.Index + 1 = t.Index then
        let folded := String.mk (getChar src s.Index :: numStr.toList)
        match strToInt folded with
        | none => .error ⟨"Integer does not fit into 64-bit value", t⟩
        | some num =>
          csInstrAfterParam src acc
            { instr with Params := instr.Params ++ [.intNum num (s.Ty = .MINUS_SIGN) 0] } ts
      else .error ⟨"Unexpected operator", s⟩
    | none =>
      match strToInt numStr with
      | none => .error ⟨"Integer does not fit into 64-bit value", t⟩
      | some num =>
        csInstrAfterParam src acc
          { instr with Params := instr.Params ++ [.intNum num false 0] } ts
  | .FLOAT_NUMBER =>
    let floatStr := getSubStr src t.Index t.Size
    match sign with
    | some s =>
      if s.Index + 1 = t.Index then
        let folded := String.mk (getChar src s.Index :: floatStr.toList)
        match strToFP folded with
        | none => .error ⟨"Float does not fit into 64-bit value", t⟩
        | some num =>
          csInstrAfterParam src acc
            { instr with Params := instr.Params ++ [.floatNum num 0] } ts
      else .error ⟨"Unexpected operator", s⟩
    | none =>
      match strToFP floatStr with
      | none => .error ⟨"Float does not fit into 64-bit value", t⟩
      | some num =>
        csInstrAfterParam src acc
          { instr with Params := instr.Params ++ [.floatNum num 0] } ts
  | _ => .error ⟨"Expected parameter", t⟩
  termination_by (ts.length, 1)
  decreasing_by
    all_goals simp_wf
    all_goals
      first
        | (apply Prod.Lex.left
           try simp only [List.length_cons]
           omega)
        | (apply Prod.Lex.right; omega)
        | (have hle := parseRegOffset_rest_le _ _ _ _ hro
           rcases Nat.eq_or_lt_of_le hle with he | hl
           · rw [he]; apply Prod.Lex.right; omega
           · apply Prod.Lex.left; omega)
        | (have hle := eat_snd_length_le ts
           apply Prod.Lex.left
           try simp only [List.length_cons]
           omega)

def csInstrAfterParam (src : String) (acc : List CodeNode) (instr : Instruction)
    (ts : List Token) : Except PErr (List CodeNode × List Token) :=
  match ts with
  | [] =>
    -- the eaten token is the clamped EOF: not a comma, not an EOL, and the
    -- next loop iteration hits the operand switch's default case on it
    .error ⟨"Expected parameter", EOF_TOKEN⟩
  | t :: ts1 =>
    if t.Ty = .COMMA then
      match ts1 with
      | [] => csInstrBody src acc instr EOF_TOKEN []
      | t2 :: ts2 => csInstrBody src acc instr t2 ts2
    else if t.Ty = .EOL then csGlobalScope src (acc ++ [.instr instr]) ts1
    else csInstrBody src acc instr t ts1
  termination_by (ts.length, 0)
  decreasing_by
    all_goals simp_wf
    all_goals
      first
        | (apply Prod.Lex.left
           try simp only [List.length_cons]
           omega)
        | (apply Prod.Lex.right; omega)
        | (have hle := parseRegOffset_rest_le _ _ _ _ hro
           rcases Nat.eq_or_lt_of_le hle with he | hl
           · rw [he]; apply Prod.Lex.right; omega
           · apply Prod.Lex.left; omega)
        | (have hle := eat_snd_length_le ts
           apply Prod.Lex.left
           try simp only [List.length_cons]
           omega)

end

/-- `Parser::parseSectionCode` (parser.cpp), entered after `code {` has been
consumed: returns the Code-section body and the tokens after the closing
brace. -/
def parseSectionCode (src : String) (ts : List Token) :
    Except PErr (List CodeNode × List Token) :=
  csGlobalScope src [] ts

/-! ## `Parser::parseSectionVars` (parser.cpp)

The C++ function is one loop parsing `IDENT ':' TYPE '=' [sign] value EOL`
declarations until the closing `}`.  We split it into `pvLoop` (loop head:
closing brace / identifier / colon / type / equals), `pvValue` (the
optional sign before the value), `pvValueCore` (the string/int/float value
cases) and `pvFinish` (the trailing EOL, appending the variable, and
re-entering the loop). -/

mutual

def pvLoop (src : String) (acc : List ASTVariable) (tok : Token)
    (ts : List Token) : Except PErr (List ASTVariable × List Token) :=
  if tok.Ty = .RIGHT_CURLY_BRACKET then .ok (acc, ts)
  else if tok.Ty ≠ .IDENTIFIER then
    .error ⟨"Expected static variable identifier", tok⟩
  else
    let idName := getSubStr src tok.Index tok.Size
    match ts with
    | [] => .error ⟨"Expected colon after variable identifier", EOF_TOKEN⟩
    | tC :: ts1 =>
      if tC.Ty ≠ .COLON then .error ⟨"Expected colon after variable identifier", tC⟩
      else
        match ts1 with
        | [] => .error ⟨"Expected type info in variable declaration", EOF_TOKEN⟩
        | tT :: ts2 =>
          if tT.Ty ≠ .TYPE_INFO then
            .error ⟨"Expected type info in variable declaration", tT⟩
          else
            match ts2 with
            | [] => .error ⟨"Expected equals sign after type info in variable declaration", EOF_TOKEN⟩
            | tE :: ts3 =>
              if tE.Ty ≠ .EQUALS_SIGN then
                .error ⟨"Expected equals sign after type info in variable declaration", tE⟩
              else pvValue src acc idName tT.Tag ts3
  termination_by (ts.length, 3)
  decreasing_by
    all_goals simp_wf
    all_goals
      first
        | (apply Prod.Lex.right; omega)
        | (apply Prod.Lex.left
           try simp only [List.length_cons]
           omega)

def pvValue (src : String) (acc : List ASTVariable) (idName : String)
    (dt : Nat) (ts : List Token) : Except PErr (List ASTVariable × List Token) :=
  match ts with
  | [] =>
    -- the eaten value token is the clamped EOF, which is no string, int or
    -- float
    .error ⟨"Expected string, float or integer as variable value", EOF_TOKEN⟩
  | tV :: ts4 =>
    if tV.Ty = .PLUS_SIGN ∨ tV.Ty = .MINUS_SIGN then
      match ts4 with
      | [] => .error ⟨"Expected string, float or integer as variable value", EOF_TOKEN⟩
      | tV2 :: ts5 => pvValueCore src acc idName dt (some tV) tV2 ts5
    else pvValueCore src acc idName dt none tV ts4
  termination_by (ts.length, 2)
  decreasing_by
    all_goals simp_wf
    all_goals
      first
        | (apply Prod.Lex.right; omega)
        | (apply Prod.Lex.left
           try simp only [List.length_cons]
           omega)

def pvValueCore (src : String) (acc : List ASTVariable) (idName : String)
    (dt : Nat) (sign : Option Token) (tok : Token) (ts : List Token) :
    Except PErr (List ASTVariable × List Token) :=
  if tok.Ty = .STRING then
    -- the sign, if any, is silently ignored for string values (as in the
    -- source, which only consults `signToken` in the numeric cases)
    let parsed := parseStringEscape (getSubStr src tok.Index tok.Size)
    pvFinish src acc ⟨idName, dt, .str parsed⟩ ts
  else if tok.Ty = .INTEGER_NUMBER then
    match sign with
    | some s =>
      if s.Index + 1 = tok.Index then
        let folded := String.mk (getChar src s.Index :: (getSubStr src tok.Index tok.Size).toList)
        let isSigned := s.Ty = .MINUS_SIGN
        match strToInt folded with
        | none => .error ⟨"Integer does not fit into 64-bit value", tok⟩
        | some v =>
          if ¬ checkIntWidth v dt isSigned then
            .error ⟨"Integer does not fit into given type value", tok⟩
          else pvFinish src acc ⟨idName, dt, .int v isSigned⟩ ts
      else .error ⟨"Unexpected operator", s⟩
    | none =>
      match strToInt (getSubStr src tok.Index tok.Size) with
      | none => .error ⟨"Integer does not fit into 64-bit value", tok⟩
      | some v =>
        if ¬ checkIntWidth v dt false then
          .error ⟨"Integer does not fit into given type value", tok⟩
        else pvFinish src acc ⟨idName, dt, .int v false⟩ ts
  else if tok.Ty = .FLOAT_NUMBER then
    match sign with
    | some s =>
      if s.Index + 1 = tok.Index then
        let folded := String.mk (getChar src s.Index :: (getSubStr src tok.Index tok.Size).toList)
        match strToFP folded with
        | none => .error ⟨"Floating-point value does not fit into 64-bit value", tok⟩
        | some q =>
          if ¬ checkFloatWidth q dt then
            .error ⟨"Floating-point value does not fit into given value", tok⟩
          else pvFinish src acc ⟨idName, dt, .flt q⟩ ts
      else .error ⟨"Unexpected operator", s⟩
    | none =>
      match strToFP (getSubStr src tok.Index tok.Size) with
      | none => .error ⟨"Floating-point value does not fit into 64-bit value", tok⟩
      | some q =>
        if ¬ checkFloatWidth q dt then
          .error ⟨"Floating-point value does not fit into given value", tok⟩
        else pvFinish src acc ⟨idName, dt, .flt q⟩ ts
  else .error ⟨"Expected string, float or integer as variable value", tok⟩
  termination_by (ts.length, 1)
  decreasing_by
    all_goals simp_wf
    all_goals
      first
        | (apply Prod.Lex.right; omega)
        | (apply Prod.Lex.left
           try simp only [List.length_cons]
           omega)

def pvFinish (src : String) (acc : List ASTVariable) (v : ASTVariable)
    (ts : List Token) : Except PErr (List ASTVariable × List Token) :=
  match ts with
  | [] => .error ⟨"Expected new line after variable declaration", EOF_TOKEN⟩
  | tN :: ts1 =>
    if tN.Ty ≠ .EOL then .error ⟨"Expected new line after variable declaration", tN⟩
    else
      match ts1 with
      | [] =>
        -- the next loop token is the clamped EOF: not `}`, not an identifier
        .error ⟨"Expected static variable identifier", EOF_TOKEN⟩
      | tok2 :: ts2 => pvLoop src (acc ++ [v]) tok2 ts2
  termination_by (ts.length, 0)
  decreasing_by
    all_goals simp_wf
    all_goals
      first
        | (apply Prod.Lex.right; omega)
        | (apply Prod.Lex.left
           try simp only [List.length_cons]
           omega)

end

/-- `Parser::parseSectionVars` (parser.cpp), entered after the section's `{`
has been consumed: skips a single leading EOL and runs the declaration
loop; returns the section body and the tokens after the closing brace. -/
def parseSectionVars (src : String) (ts : List Token) :
    Except PErr (List ASTVariable × List Token) :=
  match ts with
  | [] => .error ⟨"Expected static variable identifier", EOF_TOKEN⟩
  | t0 :: ts0 =>
    if t0.Ty = .EOL then
      match ts0 with
      | [] => .error ⟨"Expected static variable identifier", EOF_TOKEN⟩
      | t1 :: ts1 => pvLoop src [] t1 ts1
    else pvLoop src [] t0 ts0

/-! ## Properties of the generated instruction table

The walk of `typeCheckInstrParams` relies on structural properties of the
tries built from `INSTR_ASM_DEFS`; each is expressed as a fuel-bounded
boolean check (fuel `0` fails, so `pred fuel n = true` also bounds the
height of `n`) and discharged on the 54 concrete tries by `decide`. -/

/-- The equivalence class of operand categories by the AST node kind they
accept in the child `switch` of `typeCheckInstrParams`: a `TypeInfo`
operand is examined by `INT_TYPE`/`FLOAT_TYPE`, a `RegisterId` by
`INT_REG`/`FLOAT_REG`, an `ASTInt` by `INT_NUM`/`SYS_INT`, and so on. -/
def kindGroup : InstrParamType → Nat
  | .INT_TYPE => 0
  | .FLOAT_TYPE => 0
  | .LABEL_ID => 1
  | .INT_REG => 2
  | .FLOAT_REG => 2
  | .REG_OFFSET => 3
  | .INT_NUM => 4
  | .SYS_INT => 4
  | .FLOAT_NUM => 5

/-- The kind of an AST parameter node, matching `kindGroup`. -/
def paramGroup : ASTParam → Nat
  | .typeInfo _ => 0
  | .identifier _ => 1
  | .registerId _ => 2
  | .regOffset _ => 3
  | .intNum _ _ _ => 4
  | .floatNum _ _ => 5

def nodupB : List Nat → Bool
  | [] => true
  | x :: xs => !xs.contains x && nodupB xs

/-- No trie node has two children accepting the same AST node kind (spec
§4.2: "definitions are constructed so child categories are mutually
exclusive per position"). -/
def kindDisjointF : Nat → InstrDefNode → Bool
  | 0, _ => false
  | fuel+1, n =>
    nodupB (n.Children.map (fun c => kindGroup c.ipType)) &&
    n.Children.all (kindDisjointF fuel)

/-- Along every path of the trie, an `INT_NUM`/`FLOAT_NUM` edge is preceded
by an `INT_TYPE`/`FLOAT_TYPE` edge (`typed` records whether one was already
passed). -/
def numSafeF : Nat → Bool → InstrDefNode → Bool
  | 0, _, _ => false
  | fuel+1, typed, n =>
    n.Children.all (fun c =>
      (!(c.ipType = .INT_NUM || c.ipType = .FLOAT_NUM) || typed) &&
      numSafeF fuel (typed || (c.ipType = .INT_TYPE || c.ipType = .FLOAT_TYPE)) c)

/-- Every signature carrying `INSTR_FLAG_TYPE_VARIANTS` sits at the end of a
path that passed an `INT_TYPE`/`FLOAT_TYPE` edge. -/
def tvSafeF : Nat → Bool → InstrDefNode → Bool
  | 0, _, _ => false
  | fuel+1, typed, n =>
    (match n.ParamList with
     | some pl => (pl.Flags &&& INSTR_FLAG_TYPE_VARIANTS = 0) || typed
     | none => true) &&
    n.Children.all (fun c =>
      tvSafeF fuel (typed || (c.ipType = .INT_TYPE || c.ipType = .FLOAT_TYPE)) c)

/-- Every signature attached anywhere in the trie satisfies `p`. -/
def plAllF (p : InstrParamList → Bool) : Nat → InstrDefNode → Bool
  | 0, _ => false
  | fuel+1, n =>
    (match n.ParamList with | some pl => p pl | none => true) &&
    n.Children.all (plAllF p fuel)

theorem instrDefs_kindDisjoint : InstrDefs.all (kindDisjointF 8) = true := by decide

theorem instrDefs_numSafe : InstrDefs.all (numSafeF 8 false) = true := by decide

theorem instrDefs_tvSafe : InstrDefs.all (tvSafeF 8 false) = true := by decide

theorem instrDefs_variantsNodup :
    InstrDefs.all (plAllF (fun pl => nodupB (pl.OpcodeVariants.map TypeVariant.VType)) 8)
      = true := by decide

/-- A trie node with no children always carries a signature (zero-operand
instructions); the zero-parameter branch of `typeCheckInstrParams`
dereferences it. -/
theorem instrDefs_leafParamList :
    InstrDefs.all (fun n => !n.Children.isEmpty || n.ParamList.isSome) = true := by decide

/-! ## Claims -/

/-- C4: for every 64-bit value, signedness flag, and integer type, the
integer-fit check `checkIntWidth` succeeds iff the magnitude of the value —
the absolute value of its signed (two's-complement) reading when the signed
flag is set, the raw value otherwise — is `≤ 0xFF` for I8, `≤ 0xFFFF` for
I16, `≤ 0xFFFFFFFF` for I32, and always for I64; and in particular the
operand `256` with declared type `i8` is rejected by the signature matcher
with the out-of-range diagnostic while `255` is accepted. -/
theorem C4_checkIntWidth_magnitude :
    (∀ (num : Nat), num < 2 ^ 64 → ∀ (isSigned : Bool),
      (checkIntWidth num UVM_TYPE_I8 isSigned = true ↔
        (if isSigned then ((if num < 2 ^ 63 then (num : ℤ) else (num : ℤ) - 2 ^ 64).natAbs) else num) ≤ 0xFF)
      ∧ (checkIntWidth num UVM_TYPE_I16 isSigned = true ↔
        (if isSigned then ((if num < 2 ^ 63 then (num : ℤ) else (num : ℤ) - 2 ^ 64).natAbs) else num) ≤ 0xFFFF)
      ∧ (checkIntWidth num UVM_TYPE_I32 isSigned = true ↔
        (if isSigned then ((if num < 2 ^ 63 then (num : ℤ) else (num : ℤ) - 2 ^ 64).natAbs) else num) ≤ 0xFFFFFFFF)
      ∧ checkIntWidth num UVM_TYPE_I64 isSigned = true)
    ∧ (typeCheckInstrParams InstrDefs ⟨"push", 1, [.typeInfo UVM_TYPE_I8, .intNum 256 false 0], 0, 0⟩).ok = false
    ∧ (typeCheckInstrParams InstrDefs ⟨"push", 1, [.typeInfo UVM_TYPE_I8, .intNum 256 false 0], 0, 0⟩).errors
        = ["Integer does not fit into given type"]
    ∧ (typeCheckInstrParams InstrDefs ⟨"push", 1, [.typeInfo UVM_TYPE_I8, .intNum 255 false 0], 0, 0⟩).ok = true := by
  refine ⟨?_, by decide, by decide, by decide⟩
  intro num hnum isSigned
  unfold checkIntWidth UVM_TYPE_I8 UVM_TYPE_I16 UVM_TYPE_I32 UVM_TYPE_I64
  cases isSigned <;> simp only [Bool.false_eq_true, if_false, if_true, ite_true, ite_false] <;>
    repeat' split
  all_goals simp_all
  all_goals omega

/-- Witness for C4: the universally quantified part applied at the concrete
value `300` with the signed flag set, type I8 (300 is within `int64` range,
so the magnitude is 300 itself and the check fails). -/
theorem C4_checkIntWidth_magnitude_witness :
    checkIntWidth 300 UVM_TYPE_I8 true = true ↔
      (if true then ((if (300 : Nat) < 2 ^ 63 then ((300 : Nat) : ℤ) else ((300 : Nat) : ℤ) - 2 ^ 64).natAbs)
       else (300 : Nat)) ≤ 0xFF :=
  (C4_checkIntWidth_magnitude.1 300 (by decide) true).1

/-- C6 (code bug): the recorded section-permission byte.  For a Static-section
variable the code records `SEC_PERM_READ` as the claim states; but for
Global and Code sections the source combines the permissions with bitwise
AND (`SEC_PERM_READ & SEC_PERM_WRITE`, `SEC_PERM_READ & SEC_PERM_EXECUTE`),
which is `0`, not the claimed combination (union) of the permissions.  This
theorem evaluates `typeCheckVars` at the failing inputs. -/
theorem C6_secPermAndBug :
    (typeCheckVars [] .GLOBAL [⟨"x", UVM_TYPE_I64, .int 0 false⟩]).2.1
        = [⟨"x", SEC_PERM_READ &&& SEC_PERM_WRITE⟩]
    ∧ SEC_PERM_READ &&& SEC_PERM_WRITE = 0
    ∧ SEC_PERM_READ ||| SEC_PERM_WRITE = 3
    ∧ (typeCheckVars [] .CODE [⟨"x", UVM_TYPE_I64, .int 0 false⟩]).2.1
        = [⟨"x", SEC_PERM_READ &&& SEC_PERM_EXECUTE⟩]
    ∧ SEC_PERM_READ &&& SEC_PERM_EXECUTE = 0
    ∧ SEC_PERM_READ ||| SEC_PERM_EXECUTE = 5
    ∧ (typeCheckVars [] .STATIC [⟨"x", UVM_TYPE_I64, .int 0 false⟩]).2.1
        = [⟨"x", SEC_PERM_READ⟩] := by decide

/-- C7 (code bug): the float-fit check `checkFloatWidth` compares the signed
value itself against the type maximum, without taking the absolute value:
the finite double `-2^128`, whose absolute value exceeds `FLT_MAX`, is
accepted for F32.  The last two conjuncts state what the code actually
does: success iff `num ≤ FLT_MAX` (resp. `num ≤ DBL_MAX`). -/
theorem C7_checkFloatWidthNoAbs :
    checkFloatWidth (-(2 ^ 128 : ℚ)) UVM_TYPE_F32 = true
    ∧ ¬(|(-(2 ^ 128 : ℚ))| ≤ FLT_MAX)
    ∧ (∀ q : ℚ, checkFloatWidth q UVM_TYPE_F32 = true ↔ q ≤ FLT_MAX)
    ∧ (∀ q : ℚ, checkFloatWidth q UVM_TYPE_F64 = true ↔ q ≤ DBL_MAX) := by
  refine ⟨?_, ?_, ?_, ?_⟩
  · simp [checkFloatWidth, UVM_TYPE_F32, FLT_MAX]
    norm_num
  · simp [FLT_MAX]
    norm_num
  · intro q; simp [checkFloatWidth, UVM_TYPE_F32, UVM_TYPE_F64]
  · intro q; simp [checkFloatWidth, UVM_TYPE_F32, UVM_TYPE_F64]

/-- A concrete instruction on which `typeCheckInstrParams` fails (`push` with
a bare integer literal matches no signature). -/
def c10FailInstr : Instruction := ⟨"push", 1, [.intNum 5 false 0], 0, 0⟩

/-- C10: whenever `typeCheckInstrParams` returns false — no matching
signature, or an operand failed its range check — the instruction's
`Opcode` and `EncodingFlags` fields are left unchanged (in particular at
their parser-initialised value 0); they are assigned only on the success
path. -/
theorem C10_failurePreservesOpcode :
    ∀ (defs : List InstrDefNode) (instr : Instruction),
      (typeCheckInstrParams defs instr).ok = false →
      (typeCheckInstrParams defs instr).instr.Opcode = instr.Opcode
      ∧ (typeCheckInstrParams defs instr).instr.EncodingFlags = instr.EncodingFlags := by
  intro defs instr h
  rcases hE : typeCheckInstrParams defs instr with ⟨ok, instr2, refs, errs, nd, m⟩
  rw [hE] at h
  simp only at h ⊢
  unfold typeCheckInstrParams at hE
  dsimp only at hE
  repeat' (first | split at hE | dsimp only at hE)
  all_goals (injection hE with e1 e2 e3 e4 e5 e6)
  all_goals (subst e1; subst e2)
  all_goals simp_all

/-- Witness for C10: the failing `push` instruction keeps `Opcode` and
`EncodingFlags` at their initial value 0. -/
theorem C10_failurePreservesOpcode_witness :
    (typeCheckInstrParams InstrDefs c10FailInstr).instr.Opcode = c10FailInstr.Opcode
    ∧ (typeCheckInstrParams InstrDefs c10FailInstr).instr.EncodingFlags
        = c10FailInstr.EncodingFlags :=
  C10_failurePreservesOpcode InstrDefs c10FailInstr (by decide)

/-- Success shape of the immediate-offset tail `roImm32`: it succeeds only
when the peeked token is `]`, and the result has layout `sign ||| 0x2F`,
the given base, no scaled offset, no variable, and the converted immediate. -/
theorem roImm32_ok_shape (src : String) (sb b : Nat) (t3 : Token) (ts3 : List Token)
    (ro : RegisterOffset) (rest : List Token)
    (h : roImm32 src sb b t3 ts3 = .ok (ro, rest)) :
    ∃ t4 r, ts3 = t4 :: r ∧ t4.Ty = .RIGHT_SQUARE_BRACKET ∧ rest = r
    ∧ ro.Layout = sb ||| RO_LAYOUT_IR_INT ∧ ro.Base = some b ∧ ro.Offset = none
    ∧ ro.Var = none ∧ strToInt (getSubStr src t3.Index t3.Size) = some ro.Immediate := by
  unfold roImm32 at h
  cases ts3 with
  | nil => simp [peek, EOF_TOKEN] at h
  | cons t4 r =>
    by_cases hpk : t4.Ty = TokenType.RIGHT_SQUARE_BRACKET
    · rcases hs : strToInt (getSubStr src t3.Index t3.Size) with _ | num
      · simp [peek, hpk, hs] at h
      · by_cases h32 : num >>> 32 ≠ 0
        · simp [peek, hpk, hs, h32] at h
        · simp [peek, hpk, hs, h32, eat] at h
          obtain ⟨hro, hr⟩ := h
          exact ⟨t4, r, rfl, hpk, hr.symm, by simp [← hro], by simp [← hro], by simp [← hro],
                 by simp [← hro], by simp [← hro, hs]⟩
    · simp [peek, hpk] at h

/-- Success shape of the scaled-register tail `roScaled`: it succeeds only on
`<iR> * <i16> ]` with an integer offset register, and the result has layout
`sign ||| 0x1F`, the given base, the offset register and the immediate. -/
theorem roScaled_ok_shape (src : String) (sb b : Nat) (t3 : Token) (ts3 : List Token)
    (ro : RegisterOffset) (rest : List Token)
    (h : roScaled src sb b t3 ts3 = .ok (ro, rest)) :
    ∃ t4 t5 t6 r, ts3 = t4 :: t5 :: t6 :: r ∧ getRegisterType t3.Tag = .INTEGER
    ∧ t4.Ty = .ASTERISK ∧ t6.Ty = .RIGHT_SQUARE_BRACKET ∧ rest = r
    ∧ ro.Layout = sb ||| RO_LAYOUT_IR_IR_INT ∧ ro.Base = some b
    ∧ ro.Offset = some t3.Tag ∧ ro.Var = none
    ∧ strToInt (getSubStr src t5.Index t5.Size) = some ro.Immediate := by
  unfold roScaled at h
  by_cases hreg : getRegisterType t3.Tag = RegisterType.INTEGER
  · simp only [hreg, ne_eq, not_true_eq_false, if_false, ite_false, not_false_eq_true,
      if_true, ite_true] at h
    cases ts3 with
    | nil => simp at h
    | cons t4 ts4 =>
      by_cases hast : t4.Ty = TokenType.ASTERISK
      · simp only [hast, ne_eq, not_true_eq_false, if_false, ite_false] at h
        cases ts4 with
        | nil =>
          simp [eat, EOF_TOKEN, getSubStr, strToInt, stoullModel] at h
        | cons t5 ts5 =>
          simp only [eat] at h
          rcases hs : strToInt (getSubStr src t5.Index t5.Size) with _ | num
          · simp [hs] at h
          · by_cases h16 : num >>> 16 ≠ 0
            · simp [hs, h16] at h
            · simp only [hs, h16, not_false_eq_true, if_true, ite_true, if_false, ite_false] at h
              cases ts5 with
              | nil => simp [eat, EOF_TOKEN] at h
              | cons t6 r =>
                by_cases hrsq : t6.Ty = TokenType.RIGHT_SQUARE_BRACKET
                · simp only [eat, hrsq, if_true, ite_true] at h
                  simp only [Except.ok.injEq, Prod.mk.injEq] at h
                  obtain ⟨hro, hr⟩ := h
                  exact ⟨t4, t5, t6, r, rfl, hreg, hast, hrsq, hr.symm, by simp [← hro],
                         by simp [← hro], by simp [← hro], by simp [← hro], by simp [← hro, hs]⟩
                · simp [eat, hrsq] at h
      · simp [hast] at h
  · simp [hreg] at h

/-- After a sign, `Parser::parseRegOffset` dispatches on the next token:
an integer literal goes to the immediate form, a register to the scaled
form; anything else is an error. -/
theorem roAfterSign_ok_shape (src : String) (sb b : Nat) (ts2 : List Token)
    (ro : RegisterOffset) (rest : List Token)
    (h : roAfterSign src sb b ts2 = .ok (ro, rest)) :
    ∃ t3 ts3, ts2 = t3 :: ts3 ∧
      ((t3.Ty = .INTEGER_NUMBER ∧ roImm32 src sb b t3 ts3 = .ok (ro, rest))
       ∨ (t3.Ty = .REGISTER_DEFINITION ∧ roScaled src sb b t3 ts3 = .ok (ro, rest))) := by
  unfold roAfterSign at h
  cases ts2 with
  | nil => simp at h
  | cons t3 ts3 =>
    by_cases hint : t3.Ty = TokenType.INTEGER_NUMBER
    · simp only [hint, if_true, ite_true] at h
      exact ⟨t3, ts3, rfl, .inl ⟨hint, h⟩⟩
    · by_cases hr : t3.Ty = TokenType.REGISTER_DEFINITION
      · simp only [hint, hr, if_true, if_false, ite_true, ite_false] at h
        exact ⟨t3, ts3, rfl, .inr ⟨hr, h⟩⟩
      · simp [hint, hr] at h

/-- The layout discipline claimed for `Parser::parseRegOffset` (stated from
the claim, to be compared with the parser): every successful parse is one of
the four grammar forms, with layout `0` for `[ident]` (the `Var` field set),
`0x4F` for `[reg]`, `0x2F` for `[reg ± imm32]` and `0x1F` for
`[reg ± reg * imm16]`, the latter two with `0x80` ORed in exactly when the
sign is `-`. -/
def RegOffsetLayoutSpec (src : String) (ts : List Token) (ro : RegisterOffset)
    (rest : List Token) : Prop :=
  (∃ t t2 r, ts = t :: t2 :: r ∧ t.Ty = .IDENTIFIER ∧ t2.Ty = .RIGHT_SQUARE_BRACKET
     ∧ rest = r ∧ ro.Layout = 0 ∧ ro.Var = some (getSubStr src t.Index t.Size)
     ∧ ro.Base = none ∧ ro.Offset = none)
  ∨ (∃ t t2 r, ts = t :: t2 :: r ∧ t.Ty = .REGISTER_DEFINITION
     ∧ t2.Ty = .RIGHT_SQUARE_BRACKET ∧ rest = r ∧ ro.Layout = RO_LAYOUT_IR
     ∧ ro.Base = some t.Tag ∧ ro.Var = none)
  ∨ (∃ t t2 t3 t4 r, ts = t :: t2 :: t3 :: t4 :: r ∧ t.Ty = .REGISTER_DEFINITION
     ∧ (t2.Ty = .PLUS_SIGN ∨ t2.Ty = .MINUS_SIGN) ∧ t3.Ty = .INTEGER_NUMBER
     ∧ t4.Ty = .RIGHT_SQUARE_BRACKET ∧ rest = r
     ∧ ro.Layout = (if t2.Ty = .MINUS_SIGN then RO_LAYOUT_NEGATIVE else 0) ||| RO_LAYOUT_IR_INT
     ∧ ro.Base = some t.Tag ∧ ro.Var = none
     ∧ strToInt (getSubStr src t3.Index t3.Size) = some ro.Immediate)
  ∨ (∃ t t2 t3 t4 t5 t6 r, ts = t :: t2 :: t3 :: t4 :: t5 :: t6 :: r
     ∧ t.Ty = .REGISTER_DEFINITION ∧ (t2.Ty = .PLUS_SIGN ∨ t2.Ty = .MINUS_SIGN)
     ∧ t3.Ty = .REGISTER_DEFINITION ∧ t4.Ty = .ASTERISK
     ∧ t6.Ty = .RIGHT_SQUARE_BRACKET ∧ rest = r
     ∧ ro.Layout = (if t2.Ty = .MINUS_SIGN then RO_LAYOUT_NEGATIVE else 0) ||| RO_LAYOUT_IR_IR_INT
     ∧ ro.Base = some t.Tag ∧ ro.Offset = some t3.Tag ∧ ro.Var = none
     ∧ strToInt (getSubStr src t5.Index t5.Size) = some ro.Immediate)

/-- Token stream for the operand `[bp - 4]` (after the `[` was consumed):
register `bp` (id `0x03`) at byte 1, `-` at byte 4, `4` at byte 6, `]` at
byte 7 of the source `[bp - 4]`. -/
def c5Toks : List Token :=
  [⟨.REGISTER_DEFINITION, 1, 2, 0, 0, 3⟩, ⟨.MINUS_SIGN, 4, 1, 0, 0, 0⟩,
   ⟨.INTEGER_NUMBER, 6, 1, 0, 0, 0⟩, ⟨.RIGHT_SQUARE_BRACKET, 7, 1, 0, 0, 0⟩]

/-- The register-offset node claimed for `[bp - 4]`: layout `0xAF`, base
register `0x03`, 32-bit immediate `4`. -/
def c5RO : RegisterOffset :=
  { Layout := 0xAF, Base := some 3, Offset := none, Immediate := 4, Var := none }

/-- C5: every syntactically valid register-offset operand yields a node whose
layout byte is `0x4F` for `[reg]`, `0x2F` for `[reg ± imm32]`, `0x1F` for
`[reg ± reg * imm16]`, with `0x80` ORed in when the sign is `-`, and layout
zero with `Var` set for the variable form `[ident]`; in particular
`[bp - 4]` yields layout `0xAF`, base `0x03` and immediate `4`. -/
theorem C5_regOffsetLayouts :
    (∀ src ts ro rest, parseRegOffset src ts = .ok (ro, rest) →
      RegOffsetLayoutSpec src ts ro rest)
    ∧ parseRegOffset "[bp - 4]" c5Toks = .ok (c5RO, [])
    ∧ 0xAF = RO_LAYOUT_NEGATIVE ||| RO_LAYOUT_IR_INT := by
  refine ⟨?_, by rfl, by decide⟩
  intro src ts ro rest h
  unfold parseRegOffset at h
  cases ts with
  | nil => exact Except.noConfusion h
  | cons t ts1 =>
    try dsimp only at h
    by_cases hid : t.Ty = TokenType.IDENTIFIER
    · rw [if_pos hid] at h
      try dsimp only at h
      cases ts1 with
      | nil => exact Except.noConfusion h
      | cons t2 ts2 =>
        try dsimp only at h
        by_cases hrsq : t2.Ty = TokenType.RIGHT_SQUARE_BRACKET
        · rw [if_neg (not_not_intro hrsq)] at h
          injection h with h1
          injection h1 with hro hr
          exact .inl ⟨t, t2, ts2, rfl, hid, hrsq, hr.symm, by simp [← hro],
            by simp [← hro], by simp [← hro], by simp [← hro]⟩
        · rw [if_pos hrsq] at h
          exact Except.noConfusion h
    · by_cases hreg : t.Ty = TokenType.REGISTER_DEFINITION
      · by_cases hint : getRegisterType t.Tag = RegisterType.INTEGER
        · rw [if_neg hid, if_pos hreg, if_neg (not_not_intro hint)] at h
          cases ts1 with
          | nil => exact Except.noConfusion h
          | cons t2 ts2 =>
            try dsimp only at h
            by_cases hrsq : t2.Ty = TokenType.RIGHT_SQUARE_BRACKET
            · rw [if_pos hrsq] at h
              injection h with h1
              injection h1 with hro hr
              exact .inr (.inl ⟨t, t2, ts2, rfl, hreg, hrsq, hr.symm, by simp [← hro],
                by simp [← hro], by simp [← hro]⟩)
            · by_cases hpl : t2.Ty = TokenType.PLUS_SIGN
              · rw [if_neg hrsq, if_pos hpl] at h
                obtain ⟨t3, ts3, hts, hd⟩ := roAfterSign_ok_shape src 0 t.Tag ts2 ro rest h
                subst hts
                rcases hd with ⟨hty3, him⟩ | ⟨hty3, hsc⟩
                · obtain ⟨t4, r, hts3, h4, hr, hlay, hb, ho, hv, hs⟩ :=
                    roImm32_ok_shape src 0 t.Tag t3 ts3 ro rest him
                  subst hts3
                  refine .inr (.inr (.inl ⟨t, t2, t3, t4, r, rfl, hreg, .inl hpl, hty3,
                    h4, hr, ?_, hb, hv, hs⟩))
                  have hne : t2.Ty ≠ TokenType.MINUS_SIGN := by
                    rw [hpl]; intro hc; exact TokenType.noConfusion hc
                  rw [if_neg hne]; exact hlay
                · obtain ⟨t4, t5, t6, r, hts3, hrt, h4, h6, hr, hlay, hb, ho, hv, hs⟩ :=
                    roScaled_ok_shape src 0 t.Tag t3 ts3 ro rest hsc
                  subst hts3
                  refine .inr (.inr (.inr ⟨t, t2, t3, t4, t5, t6, r, rfl, hreg, .inl hpl,
                    hty3, h4, h6, hr, ?_, hb, ho, hv, hs⟩))
                  have hne : t2.Ty ≠ TokenType.MINUS_SIGN := by
                    rw [hpl]; intro hc; exact TokenType.noConfusion hc
                  rw [if_neg hne]; exact hlay
              · by_cases hmi : t2.Ty = TokenType.MINUS_SIGN
                · rw [if_neg hrsq, if_neg hpl, if_pos hmi] at h
                  obtain ⟨t3, ts3, hts, hd⟩ :=
                    roAfterSign_ok_shape src RO_LAYOUT_NEGATIVE t.Tag ts2 ro rest h
                  subst hts
                  rcases hd with ⟨hty3, him⟩ | ⟨hty3, hsc⟩
                  · obtain ⟨t4, r, hts3, h4, hr, hlay, hb, ho, hv, hs⟩ :=
                      roImm32_ok_shape src RO_LAYOUT_NEGATIVE t.Tag t3 ts3 ro rest him
                    subst hts3
                    refine .inr (.inr (.inl ⟨t, t2, t3, t4, r, rfl, hreg, .inr hmi, hty3,
                      h4, hr, ?_, hb, hv, hs⟩))
                    rw [if_pos hmi]; exact hlay
                  · obtain ⟨t4, t5, t6, r, hts3, hrt, h4, h6, hr, hlay, hb, ho, hv, hs⟩ :=
                      roScaled_ok_shape src RO_LAYOUT_NEGATIVE t.Tag t3 ts3 ro rest hsc
                    subst hts3
                    refine .inr (.inr (.inr ⟨t, t2, t3, t4, t5, t6, r, rfl, hreg, .inr hmi,
                      hty3, h4, h6, hr, ?_, hb, ho, hv, hs⟩))
                    rw [if_pos hmi]; exact hlay
                · rw [if_neg hrsq, if_neg hpl, if_neg hmi] at h
                  exact Except.noConfusion h
        · rw [if_neg hid, if_pos hreg, if_pos hint] at h
          exact Except.noConfusion h
      · rw [if_neg hid, if_neg hreg] at h
        exact Except.noConfusion h

/-- Witness for C5: the universal part applied to the concrete `[bp - 4]`
token stream. -/
theorem C5_regOffsetLayouts_witness :
    RegOffsetLayoutSpec "[bp - 4]" c5Toks c5RO [] :=
  C5_regOffsetLayouts.1 "[bp - 4]" c5Toks c5RO [] (by rfl)

/-- Token stream for the source line `push i32 - 1` followed by `\n}`:
the sign at byte 9 is separated from the literal at byte 11 (positions in
`LineRow`/`LineCol` are irrelevant to parsing and left `0`). -/
def c8Toks : List Token :=
  [⟨.INSTRUCTION, 0, 4, 0, 0, 1⟩, ⟨.TYPE_INFO, 5, 3, 0, 0, 3⟩,
   ⟨.MINUS_SIGN, 9, 1, 0, 0, 0⟩, ⟨.INTEGER_NUMBER, 11, 1, 0, 0, 0⟩,
   ⟨.EOL, 12, 1, 0, 0, 0⟩, ⟨.RIGHT_CURLY_BRACKET, 13, 1, 0, 0, 0⟩]

/-- C8: a `+`/`-` sign before an integer or float literal (instruction
operand or variable value) is folded into the literal exactly when the sign
token's byte index plus one equals the literal token's byte index, the
`IsSigned` flag of an integer recording whether the sign was `-`; otherwise
the parse fails with an `Unexpected operator` diagnostic on the sign token,
and in particular a sign separated from the literal by a space, as in
`push i32 - 1`, fails the whole parse with that diagnostic. -/
theorem C8_signAdjacency :
    (∀ src acc instr (s t : Token) ts, t.Ty = .INTEGER_NUMBER ∨ t.Ty = .FLOAT_NUMBER →
      s.Index + 1 ≠ t.Index →
      csInstrOperand src acc instr (some s) t ts = .error ⟨"Unexpected operator", s⟩)
    ∧ (∀ src acc instr (s t : Token) ts num, t.Ty = .INTEGER_NUMBER → s.Index + 1 = t.Index →
        strToInt (String.mk (getChar src s.Index :: (getSubStr src t.Index t.Size).toList))
          = some num →
        csInstrOperand src acc instr (some s) t ts =
          csInstrAfterParam src acc
            { instr with Params := instr.Params ++ [.intNum num (s.Ty = .MINUS_SIGN) 0] } ts)
    ∧ (∀ src acc instr (s t : Token) ts q, t.Ty = .FLOAT_NUMBER → s.Index + 1 = t.Index →
        strToFP (String.mk (getChar src s.Index :: (getSubStr src t.Index t.Size).toList))
          = some q →
        csInstrOperand src acc instr (some s) t ts =
          csInstrAfterParam src acc
            { instr with Params := instr.Params ++ [.floatNum q 0] } ts)
    ∧ (∀ src acc idName dt (s t : Token) ts, t.Ty = .INTEGER_NUMBER ∨ t.Ty = .FLOAT_NUMBER →
        s.Index + 1 ≠ t.Index →
        pvValueCore src acc idName dt (some s) t ts = .error ⟨"Unexpected operator", s⟩)
    ∧ (∀ src acc idName dt (s t : Token) ts v, t.Ty = .INTEGER_NUMBER → s.Index + 1 = t.Index →
        strToInt (String.mk (getChar src s.Index :: (getSubStr src t.Index t.Size).toList))
          = some v →
        checkIntWidth v dt (s.Ty = .MINUS_SIGN) = true →
        pvValueCore src acc idName dt (some s) t ts =
          pvFinish src acc ⟨idName, dt, .int v (s.Ty = .MINUS_SIGN)⟩ ts)
    ∧ (∀ src acc idName dt (s t : Token) ts q, t.Ty = .FLOAT_NUMBER → s.Index + 1 = t.Index →
        strToFP (String.mk (getChar src s.Index :: (getSubStr src t.Index t.Size).toList))
          = some q →
        checkFloatWidth q dt = true →
        pvValueCore src acc idName dt (some s) t ts =
          pvFinish src acc ⟨idName, dt, .flt q⟩ ts)
    ∧ parseSectionCode "push i32 - 1\n\x7d" c8Toks =
        .error ⟨"Unexpected operator", ⟨.MINUS_SIGN, 9, 1, 0, 0, 0⟩⟩ := by
  refine ⟨?_, ?_, ?_, ?_, ?_, ?_, ?_⟩
  · intro src acc instr s t ts ht hne
    unfold csInstrOperand
    rcases ht with ht | ht <;> rw [ht] <;> dsimp only <;> rw [if_neg hne]
  · intro src acc instr s t ts num ht hadj hnum
    unfold csInstrOperand
    rw [ht]
    dsimp only
    rw [if_pos hadj, hnum]
  · intro src acc instr s t ts q ht hadj hq
    unfold csInstrOperand
    rw [ht]
    dsimp only
    rw [if_pos hadj, hq]
  · intro src acc idName dt s t ts ht hne
    unfold pvValueCore
    rcases ht with ht | ht <;> rw [ht] <;> simp [hne]
  · intro src acc idName dt s t ts v ht hadj hv hw
    unfold pvValueCore
    rw [ht]
    dsimp only
    rw [if_pos hadj, hv]
    dsimp only
    simp [hw]
  · intro src acc idName dt s t ts q ht hadj hq hw
    unfold pvValueCore
    rw [ht]
    dsimp only
    rw [if_pos hadj, hq]
    dsimp only
    simp only [hw]
    simp [hadj]
  · simp [parseSectionCode, csGlobalScope, csGlobalDispatch, csInstrBodyStart,
      csInstrBody, csInstrOperand, c8Toks, peek, eat]

/-- Witness for C8: the adjacent-sign clause applied to `-5` (folded into
the wrapped 64-bit literal) and the separated-sign clause applied to `- 5`. -/
theorem C8_signAdjacency_witness :
    csInstrOperand "-5" [] ⟨"push", 1, [], 0, 0⟩ (some ⟨.MINUS_SIGN, 0, 1, 0, 0, 0⟩)
        ⟨.INTEGER_NUMBER, 1, 1, 0, 0, 0⟩ [] =
      csInstrAfterParam "-5" []
        ⟨"push", 1, [.intNum 18446744073709551611 true 0], 0, 0⟩ []
    ∧ csInstrOperand "- 5" [] ⟨"push", 1, [], 0, 0⟩ (some ⟨.MINUS_SIGN, 0, 1, 0, 0, 0⟩)
        ⟨.INTEGER_NUMBER, 2, 1, 0, 0, 0⟩ [] =
        .error ⟨"Unexpected operator", ⟨.MINUS_SIGN, 0, 1, 0, 0, 0⟩⟩ :=
  ⟨C8_signAdjacency.2.1 "-5" [] ⟨"push", 1, [], 0, 0⟩ _ _ [] 18446744073709551611
      rfl rfl (by decide),
   C8_signAdjacency.1 "- 5" [] ⟨"push", 1, [], 0, 0⟩ _ _ [] (.inl rfl) (by decide)⟩

/-- Whether an operand category is a type operand (`INT_TYPE`/`FLOAT_TYPE`),
the categories whose `childVisit` acceptance remembers the `TypeInfo`. -/
def isTypeKind (t : InstrParamType) : Bool :=
  t = .INT_TYPE || t = .FLOAT_TYPE

/-- Whether an operand category dereferences the remembered `TypeInfo`
(`INT_NUM`/`FLOAT_NUM`). -/
def isNumKind (t : InstrParamType) : Bool :=
  t = .INT_NUM || t = .FLOAT_NUM

/-- Elementary facts about one child visit: a null dereference only happens
on a numeric-kind child with no remembered type; the remembered type is
never cleared; `nextNode` is either untouched or set to the visited child,
and accepting a type-kind child records a type. -/
theorem childVisit_props (s : StepState) (c : InstrDefNode) :
    ((childVisit s c).nullDeref = true →
      (s.nullDeref = true ∨ (isNumKind c.ipType = true ∧ s.type.isSome = false)))
    ∧ (s.type.isSome = true → (childVisit s c).type.isSome = true)
    ∧ ((childVisit s c).nextNode = s.nextNode ∨
       ((childVisit s c).nextNode = some c ∧
        (isTypeKind c.ipType = true → (childVisit s c).type.isSome = true)))
    ∧ ((childVisit s c).nullDeref = false → s.nullDeref = false) := by
  rcases c with ⟨ipt, ch, pl⟩
  cases ipt <;> cases hn : s.node <;>
    simp only [childVisit, InstrDefNode.ipType, isNumKind, isTypeKind, hn] <;>
    try (cases hty : s.type) <;>
    (repeat' split) <;> simp_all

/-- The inner child loop preserves the type-safety invariants: no null
dereference when numeric-kind children only occur with a remembered type,
the remembered type persists, the accepted child comes from the list, and
an accepted type-kind child leaves a remembered type. -/
theorem foldl_childVisit_props (children : List InstrDefNode) :
    ∀ s : StepState, s.nullDeref = false →
    (∀ c ∈ children, isNumKind c.ipType = true → s.type.isSome = true) →
    (∀ c, s.nextNode = some c → isTypeKind c.ipType = true → s.type.isSome = true) →
    (children.foldl childVisit s).nullDeref = false
    ∧ (s.type.isSome = true → (children.foldl childVisit s).type.isSome = true)
    ∧ (∀ c, (children.foldl childVisit s).nextNode = some c →
        (c ∈ children ∨ s.nextNode = some c))
    ∧ (∀ c, (children.foldl childVisit s).nextNode = some c → isTypeKind c.ipType = true →
        (children.foldl childVisit s).type.isSome = true) := by
  induction children with
  | nil =>
    intro s hnd _ hnx
    exact ⟨hnd, fun h => h, fun c h => .inr h, fun c h ht => hnx c h ht⟩
  | cons c cs ih =>
    intro s hnd hnum hnx
    have hp := childVisit_props s c
    have hnd' : (childVisit s c).nullDeref = false := by
      cases hcv : (childVisit s c).nullDeref with
      | false => rfl
      | true =>
        rcases hp.1 hcv with h | ⟨hk, hs⟩
        · rw [hnd] at h; exact Bool.noConfusion h
        · rw [hnum c (by simp) hk] at hs; exact Bool.noConfusion hs
    have hmono : s.type.isSome = true → (childVisit s c).type.isSome = true := hp.2.1
    have hnum' : ∀ c' ∈ cs, isNumKind c'.ipType = true →
        (childVisit s c).type.isSome = true := by
      intro c' hc' hk
      exact hmono (hnum c' (by simp [hc']) hk)
    have hnx' : ∀ c', (childVisit s c).nextNode = some c' → isTypeKind c'.ipType = true →
        (childVisit s c).type.isSome = true := by
      intro c' hc' ht
      rcases hp.2.2.1 with he | ⟨he, hty⟩
      · exact hmono (hnx c' (he ▸ hc') ht)
      · rw [hc'] at he
        injection he with he
        exact hty (he ▸ ht)
    have ihr := ih (childVisit s c) hnd' hnum' hnx'
    simp only [List.foldl_cons]
    refine ⟨ihr.1, fun h => ihr.2.1 (hmono h), ?_, ihr.2.2.2⟩
    intro c' hc'
    rcases ihr.2.2.1 c' hc' with h | h
    · exact .inl (by simp [h])
    · rcases hp.2.2.1 with he | ⟨he, _⟩
      · exact .inr (he ▸ h)
      · rw [h] at he
        injection he with he
        exact .inl (by simp [he])

/-- The signature walk never null-dereferences, and whenever it resolves a
signature carrying `INSTR_FLAG_TYPE_VARIANTS` it has a remembered type,
provided the trie satisfies `numSafeF`/`tvSafeF`. -/
theorem walk_safe (params : List ASTParam) :
    ∀ (fuel : Nat) (cur : InstrDefNode) (ty : Option Nat) (typed : Bool),
    numSafeF fuel typed cur = true →
    tvSafeF fuel typed cur = true →
    (typed = true → ty.isSome = true) →
    (walk cur ty params).nullDeref = false
    ∧ (∀ pl, (walk cur ty params).paramList = some pl →
        pl.Flags &&& INSTR_FLAG_TYPE_VARIANTS ≠ 0 →
        (walk cur ty params).finalType.isSome = true) := by
  induction params with
  | nil =>
    intro fuel cur ty typed hns htv hty
    simp [walk]
  | cons p rest ih =>
    intro fuel cur ty typed hns htv hty
    cases fuel with
    | zero => simp [numSafeF] at hns
    | succ fuel =>
      simp only [numSafeF] at hns
      simp only [tvSafeF, Bool.and_eq_true] at htv
      obtain ⟨htvh, htvc⟩ := htv
      rw [List.all_eq_true] at hns htvc
      have hnum0 : ∀ c ∈ cur.Children, isNumKind c.ipType = true →
          (⟨none, ty, p, [], [], false, false⟩ : StepState).type.isSome = true := by
        intro c hc hk
        have h1 := hns c hc
        rw [Bool.and_eq_true] at h1
        have h2 := h1.1
        simp only [isNumKind] at hk
        rw [hk] at h2
        simp only [Bool.not_true, Bool.false_or] at h2
        exact hty h2
      have hnx0 : ∀ c, (⟨none, ty, p, [], [], false, false⟩ : StepState).nextNode = some c →
          isTypeKind c.ipType = true →
          (⟨none, ty, p, [], [], false, false⟩ : StepState).type.isSome = true := by
        intro c h
        exact absurd h (by simp)
      have fp := foldl_childVisit_props cur.Children
        ⟨none, ty, p, [], [], false, false⟩ rfl hnum0 hnx0
      simp only [walk]
      rcases hnn : (cur.Children.foldl childVisit
          ⟨none, ty, p, [], [], false, false⟩).nextNode with _ | nxt
      · simp only [hnn]
        exact ⟨fp.1, by intro pl h; exact absurd h (by simp)⟩
      · simp only [hnn]
        have hmem : nxt ∈ cur.Children := by
          rcases fp.2.2.1 nxt hnn with h | h
          · exact h
          · exact absurd h (by simp)
        have htype : (typed || isTypeKind nxt.ipType) = true →
            (cur.Children.foldl childVisit
              ⟨none, ty, p, [], [], false, false⟩).type.isSome = true := by
          intro h
          rw [Bool.or_eq_true] at h
          rcases h with h | h
          · exact fp.2.1 (by simpa using hty h)
          · exact fp.2.2.2 nxt hnn h
        cases rest with
        | nil =>
          refine ⟨fp.1, ?_⟩
          intro pl hpl htvflag
          have htvn := htvc nxt hmem
          cases fuel with
          | zero => simp [tvSafeF] at htvn
          | succ fuel =>
            simp only [tvSafeF, Bool.and_eq_true] at htvn
            have hhead := htvn.1
            simp only at hpl
            rw [hpl] at hhead
            rw [Bool.or_eq_true] at hhead
            rcases hhead with h | h
            · exact absurd (by simpa using h) htvflag
            · exact htype (by simpa [isTypeKind] using h)
        | cons r1 r2 =>
          have hnsn := hns nxt hmem
          rw [Bool.and_eq_true] at hnsn
          have htvn := htvc nxt hmem
          have ihr := ih fuel nxt
            ((cur.Children.foldl childVisit
              ⟨none, ty, p, [], [], false, false⟩).type)
            (typed || (nxt.ipType = .INT_TYPE || nxt.ipType = .FLOAT_TYPE))
            hnsn.2 htvn (by intro h; exact htype (by simpa [isTypeKind] using h))
          refine ⟨?_, ?_⟩
          · simp only [Bool.or_eq_false_iff]
            exact ⟨fp.1, ihr.1⟩
          · intro pl hpl htvflag
            exact ihr.2 pl hpl htvflag

/-- Flat per-signature check (the claim's reading of the table): walking the
parameter categories left to right, every `INT_NUM`/`FLOAT_NUM` is preceded
by an `INT_TYPE`/`FLOAT_TYPE`. -/
def sigNumTypedAux : Bool → List InstrParamType → Bool
  | _, [] => true
  | typed, p :: rest =>
    (!(isNumKind p) || typed) && sigNumTypedAux (typed || isTypeKind p) rest

/-- C9: for every instruction with a valid table index, the signature walk
of `typeCheckInstrParams` against the generated table never dereferences a
null remembered `TypeInfo` (`nullDeref` is never set); and in the flat
table every signature containing `INT_NUM`/`FLOAT_NUM` lists a type
parameter before it, with at most one type parameter per signature. -/
theorem C9_noNullTypeDeref :
    (∀ instr : Instruction, instr.ASMDefIndex < InstrDefs.length →
      (typeCheckInstrParams InstrDefs instr).nullDeref = false)
    ∧ (∀ sigs ∈ INSTR_ASM_DEFS, ∀ pl ∈ sigs,
        sigNumTypedAux false pl.Params = true
        ∧ pl.Params.countP (fun t => isTypeKind t) ≤ 1) := by
  constructor
  · intro instr hlt
    have hmem : InstrDefs.getD instr.ASMDefIndex (.mk .INT_TYPE [] none) ∈ InstrDefs := by
      rw [List.getD_eq_getElem _ _ hlt]
      exact List.getElem_mem _
    have hns : numSafeF 8 false (InstrDefs.getD instr.ASMDefIndex (.mk .INT_TYPE [] none))
        = true := by
      have h := instrDefs_numSafe
      rw [List.all_eq_true] at h
      exact h _ hmem
    have htv : tvSafeF 8 false (InstrDefs.getD instr.ASMDefIndex (.mk .INT_TYPE [] none))
        = true := by
      have h := instrDefs_tvSafe
      rw [List.all_eq_true] at h
      exact h _ hmem
    have hleaf : (!(InstrDefs.getD instr.ASMDefIndex (.mk .INT_TYPE [] none)).Children.isEmpty
        || (InstrDefs.getD instr.ASMDefIndex (.mk .INT_TYPE [] none)).ParamList.isSome)
        = true := by
      have h := instrDefs_leafParamList
      rw [List.all_eq_true] at h
      exact h _ hmem
    have ws := walk_safe instr.Params 8
      (InstrDefs.getD instr.ASMDefIndex (.mk .INT_TYPE [] none)) none false hns htv
      (by intro h; exact Bool.noConfusion h)
    unfold typeCheckInstrParams
    dsimp only
    by_cases hemp : instr.Params.isEmpty
    · rw [if_pos hemp]
      by_cases hch : (InstrDefs.getD instr.ASMDefIndex (.mk .INT_TYPE [] none)).Children.isEmpty
      · rw [if_pos hch]
        rw [hch] at hleaf
        simp only [Bool.not_true, Bool.false_or] at hleaf
        rcases hpl : (InstrDefs.getD instr.ASMDefIndex (.mk .INT_TYPE [] none)).ParamList
          with _ | pl
        · rw [hpl] at hleaf; exact Bool.noConfusion hleaf
        · simp [hpl]
      · rw [if_neg hch]
    · rw [if_neg hemp]
      rcases hpl : (walk (InstrDefs.getD instr.ASMDefIndex (.mk .INT_TYPE [] none)) none
          instr.Params).paramList with _ | pl
      · simp only [hpl]
        exact ws.1
      · simp only [hpl]
        by_cases hef : (walk (InstrDefs.getD instr.ASMDefIndex (.mk .INT_TYPE [] none)) none
            instr.Params).errorFlag
        · rw [if_pos hef]
          exact ws.1
        · rw [if_neg hef]
          by_cases htvf : pl.Flags &&& INSTR_FLAG_TYPE_VARIANTS ≠ 0
          · rw [if_pos htvf]
            rcases hft : (walk (InstrDefs.getD instr.ASMDefIndex (.mk .INT_TYPE [] none)) none
                instr.Params).finalType with _ | dt
            · have := ws.2 pl hpl htvf
              rw [hft] at this
              exact Bool.noConfusion this
            · simp only [hft]
              exact ws.1
          · rw [if_neg htvf]
            exact ws.1
  · decide

/-- Witness for C9: the universal part applied to `push i32, 42`. -/
theorem C9_noNullTypeDeref_witness :
    (⟨"push", 1, [.typeInfo 3, .intNum 42 false 0], 0, 0⟩ : Instruction).ASMDefIndex
        < InstrDefs.length
    ∧ (typeCheckInstrParams InstrDefs
        ⟨"push", 1, [.typeInfo 3, .intNum 42 false 0], 0, 0⟩).nullDeref = false :=
  ⟨by decide, C9_noNullTypeDeref.1 ⟨"push", 1, [.typeInfo 3, .intNum 42 false 0], 0, 0⟩
    (by decide)⟩

/-- The candidate node accepted by the inner child loop is one of the
visited children (or was already set before the loop). -/
theorem foldl_childVisit_nextNode_mem (children : List InstrDefNode) :
    ∀ (s : StepState) (c : InstrDefNode),
    (children.foldl childVisit s).nextNode = some c →
    c ∈ children ∨ s.nextNode = some c := by
  induction children with
  | nil => intro s c h; exact .inr h
  | cons c0 cs ih =>
    intro s c h
    simp only [List.foldl_cons] at h
    rcases ih (childVisit s c0) c h with h1 | h1
    · exact .inl (by simp [h1])
    · rcases (childVisit_props s c0).2.2.1 with he | ⟨he, _⟩
      · exact .inr (he ▸ h1)
      · rw [h1] at he
        injection he with he
        exact .inl (by simp [he])

/-- Provenance of the resolved signature: whatever signature the walk
resolves was attached to some node of the trie, so any property `plAllF`
establishes for every signature in the trie holds for it. -/
theorem walk_plAll (params : List ASTParam) :
    ∀ (fuel : Nat) (cur : InstrDefNode) (ty : Option Nat) (p : InstrParamList → Bool),
    plAllF p fuel cur = true →
    ∀ pl, (walk cur ty params).paramList = some pl → p pl = true := by
  induction params with
  | nil =>
    intro fuel cur ty p hall pl h
    simp [walk] at h
  | cons q rest ih =>
    intro fuel cur ty p hall pl h
    cases fuel with
    | zero => simp [plAllF] at hall
    | succ fuel =>
      simp only [plAllF, Bool.and_eq_true] at hall
      rw [List.all_eq_true] at hall
      simp only [walk] at h
      rcases hnn : (cur.Children.foldl childVisit
          ⟨none, ty, q, [], [], false, false⟩).nextNode with _ | nxt
      · rw [hnn] at h
        simp at h
      · rw [hnn] at h
        have hmem : nxt ∈ cur.Children := by
          rcases foldl_childVisit_nextNode_mem cur.Children _ nxt hnn with h1 | h1
          · exact h1
          · exact absurd h1 (by simp)
        have hn := hall.2 nxt hmem
        cases rest with
        | nil =>
          simp only at h
          cases fuel with
          | zero => simp [plAllF] at hn
          | succ fuel =>
            simp only [plAllF, Bool.and_eq_true] at hn
            have := hn.1
            rw [h] at this
            exact this
        | cons r1 r2 =>
          simp only at h
          exact ih fuel nxt _ p hn pl h

/-- The type-variant fold leaves its accumulator alone when no entry
matches the looked-up type. -/
theorem variantFold_unchanged (vs : List TypeVariant) (dt : Nat) :
    ∀ acc : Nat, (∀ u ∈ vs, u.VType ≠ dt) →
    vs.foldl (fun acc v => if v.VType = dt then v.Opcode else acc) acc = acc := by
  induction vs with
  | nil => intro acc _; rfl
  | cons v0 vs ih =>
    intro acc h
    simp only [List.foldl_cons]
    rw [if_neg (h v0 (by simp))]
    exact ih acc (fun u hu => h u (by simp [hu]))

/-- With pairwise-distinct variant types (as in the generated table), the
type-variant lookup returns exactly the opcode of the entry whose type
equals the looked-up type. -/
theorem variantLookup_nodup (variants : List TypeVariant) :
    ∀ (dt : Nat) (v : TypeVariant),
    nodupB (variants.map TypeVariant.VType) = true →
    v ∈ variants → v.VType = dt →
    variantLookup variants dt = v.Opcode := by
  induction variants with
  | nil => intro dt v _ hv; exact absurd hv (by simp)
  | cons v0 vs ih =>
    intro dt v hnd hv hvt
    simp only [List.map_cons, nodupB, Bool.and_eq_true] at hnd
    rcases List.mem_cons.mp hv with he | he
    · subst he
      unfold variantLookup
      simp only [List.foldl_cons]
      rw [if_pos hvt]
      apply variantFold_unchanged
      intro u hu hud
      have hc := hnd.1
      simp only [Bool.not_eq_true'] at hc
      simp at hc
      exact hc u hu (by rw [hud, hvt])
    · by_cases h0 : v0.VType = dt
      · exfalso
        have hc := hnd.1
        simp only [Bool.not_eq_true'] at hc
        simp at hc
        exact hc v he (by rw [hvt, h0])
      · unfold variantLookup
        simp only [List.foldl_cons]
        rw [if_neg h0]
        exact ih dt v hnd.2 he hvt

/-- C2: whenever `typeCheckInstrParams` matches a signature, the
instruction's `EncodingFlags` is the signature's flags byte verbatim, and
its `Opcode` is the signature's base opcode without
`INSTR_FLAG_TYPE_VARIANTS`, and with it the result of the type-variant
lookup on the remembered `TypeInfo` type — which, variant types being
pairwise distinct in the generated table, is the opcode of the entry whose
type equals it; in particular `push i32, 42` receives opcode `0x03` and
`exit` receives opcode `0x50`. -/
theorem C2_opcodeAttachment :
    (∀ (defs : List InstrDefNode) (instr : Instruction) (pl : InstrParamList)
        (tOpt : Option Nat),
      (typeCheckInstrParams defs instr).ok = true →
      (typeCheckInstrParams defs instr).matched = some (pl, tOpt) →
      (typeCheckInstrParams defs instr).instr.EncodingFlags = pl.Flags
      ∧ (pl.Flags &&& INSTR_FLAG_TYPE_VARIANTS = 0 →
          (typeCheckInstrParams defs instr).instr.Opcode = pl.Opcode)
      ∧ (∀ dt, tOpt = some dt → pl.Flags &&& INSTR_FLAG_TYPE_VARIANTS ≠ 0 →
          (typeCheckInstrParams defs instr).instr.Opcode
            = variantLookup pl.OpcodeVariants dt))
    ∧ (∀ (variants : List TypeVariant) (dt : Nat) (v : TypeVariant),
        nodupB (variants.map TypeVariant.VType) = true → v ∈ variants → v.VType = dt →
        variantLookup variants dt = v.Opcode)
    ∧ (∀ (instr : Instruction) (pl : InstrParamList) (tOpt : Option Nat),
        instr.ASMDefIndex < InstrDefs.length →
        (typeCheckInstrParams InstrDefs instr).matched = some (pl, tOpt) →
        nodupB (pl.OpcodeVariants.map TypeVariant.VType) = true)
    ∧ ((typeCheckInstrParams InstrDefs
          ⟨"push", 1, [.typeInfo 3, .intNum 42 false 0], 0, 0⟩).ok = true
       ∧ (typeCheckInstrParams InstrDefs
          ⟨"push", 1, [.typeInfo 3, .intNum 42 false 0], 0, 0⟩).instr.Opcode = 0x03)
    ∧ ((typeCheckInstrParams InstrDefs ⟨"exit", 9, [], 0, 0⟩).ok = true
       ∧ (typeCheckInstrParams InstrDefs ⟨"exit", 9, [], 0, 0⟩).instr.Opcode = 0x50) := by
  refine ⟨?_, variantLookup_nodup, ?_, by decide, by decide⟩
  · intro defs instr pl tOpt hok hm
    rcases hE : typeCheckInstrParams defs instr with ⟨ok, instr2, refs, errs, nd, m⟩
    rw [hE] at hok hm
    simp only at hok hm ⊢
    unfold typeCheckInstrParams at hE
    repeat' (first | split at hE | dsimp only at hE)
    all_goals (injection hE with h1 h2 h3 h4 h5 h6)
    all_goals subst h1 h2 h3 h4 h5 h6
    all_goals simp_all
    all_goals (intro dt hdt; subst hdt; simp_all)
  · intro instr pl tOpt hlt hm
    have hmem : InstrDefs.getD instr.ASMDefIndex (.mk .INT_TYPE [] none) ∈ InstrDefs := by
      rw [List.getD_eq_getElem _ _ hlt]
      exact List.getElem_mem _
    have hall : plAllF (fun pl => nodupB (pl.OpcodeVariants.map TypeVariant.VType)) 8
        (InstrDefs.getD instr.ASMDefIndex (.mk .INT_TYPE [] none)) = true := by
      have h := instrDefs_variantsNodup
      rw [List.all_eq_true] at h
      exact h _ hmem
    unfold typeCheckInstrParams at hm
    dsimp only at hm
    by_cases hemp : instr.Params.isEmpty
    · rw [if_pos hemp] at hm
      by_cases hch : (InstrDefs.getD instr.ASMDefIndex
          (.mk .INT_TYPE [] none)).Children.isEmpty
      · rw [if_pos hch] at hm
        rcases hpl : (InstrDefs.getD instr.ASMDefIndex
            (.mk .INT_TYPE [] none)).ParamList with _ | pl0
        · rw [hpl] at hm
          exact Option.noConfusion hm
        · rw [hpl] at hm
          try simp only at hm
          injection hm with hm
          injection hm with hm1 hm2
          subst hm1
          simp only [plAllF, Bool.and_eq_true] at hall
          have := hall.1
          rw [hpl] at this
          exact this
      · rw [if_neg hch] at hm
        exact Option.noConfusion hm
    · rw [if_neg hemp] at hm
      rcases hpl : (walk (InstrDefs.getD instr.ASMDefIndex (.mk .INT_TYPE [] none)) none
          instr.Params).paramList with _ | pl0
      · simp only [hpl] at hm
        exact Option.noConfusion hm
      · simp only [hpl] at hm
        have hp0 : nodupB (pl0.OpcodeVariants.map TypeVariant.VType) = true :=
          walk_plAll instr.Params 8 _ none _ hall pl0 hpl
        by_cases hef : (walk (InstrDefs.getD instr.ASMDefIndex (.mk .INT_TYPE [] none)) none
            instr.Params).errorFlag
        · rw [if_pos hef] at hm
          try simp only at hm
          injection hm with hm
          injection hm with hm1 hm2
          subst hm1
          exact hp0
        · rw [if_neg hef] at hm
          by_cases htvf : pl0.Flags &&& INSTR_FLAG_TYPE_VARIANTS ≠ 0
          · rw [if_pos htvf] at hm
            rcases hft : (walk (InstrDefs.getD instr.ASMDefIndex (.mk .INT_TYPE [] none)) none
                instr.Params).finalType with _ | dt
            · simp only [hft] at hm
              injection hm with hm
              injection hm with hm1 hm2
              subst hm1
              exact hp0
            · simp only [hft] at hm
              injection hm with hm
              injection hm with hm1 hm2
              subst hm1
              exact hp0
          · rw [if_neg htvf] at hm
            simp only at hm
            injection hm with hm
            injection hm with hm1 hm2
            subst hm1
            exact hp0

/-- Witness for C2: the universal part applied to `push i32, 42` and its
matched signature resolves opcode `0x03` with the flags byte `0x02`. -/
theorem C2_opcodeAttachment_witness :
    (typeCheckInstrParams InstrDefs
        ⟨"push", 1, [.typeInfo 3, .intNum 42 false 0], 0, 0⟩).instr.EncodingFlags
      = INSTR_FLAG_TYPE_VARIANTS
    ∧ (typeCheckInstrParams InstrDefs
        ⟨"push", 1, [.typeInfo 3, .intNum 42 false 0], 0, 0⟩).instr.Opcode = 3 := by
  have h := C2_opcodeAttachment.1 InstrDefs
    ⟨"push", 1, [.typeInfo 3, .intNum 42 false 0], 0, 0⟩
    ⟨0x01, 0x02, [.INT_TYPE, .INT_NUM],
      [⟨UVM_TYPE_I8, 0x01⟩, ⟨UVM_TYPE_I16, 0x02⟩, ⟨UVM_TYPE_I32, 0x03⟩, ⟨UVM_TYPE_I64, 0x04⟩]⟩
    (some 3) (by decide) (by decide)
  refine ⟨?_, ?_⟩
  · have := h.1
    simpa using this
  · have := h.2.2 3 rfl (by decide)
    rw [this]
    decide

/-- A child whose operand category does not accept the current AST node
kind leaves the loop state untouched (the `switch` default arms). -/
theorem childVisit_group_id (s : StepState) (c : InstrDefNode)
    (h : kindGroup c.ipType ≠ paramGroup s.node) : childVisit s c = s := by
  rcases c with ⟨ipt, ch, pl⟩
  cases ipt <;> cases hn : s.node <;>
    simp_all [childVisit, InstrDefNode.ipType, kindGroup, paramGroup, hn]

/-- A child visit may rewrite the AST node (assigning a literal's
`DataType`) but never changes its kind. -/
theorem childVisit_node_group (s : StepState) (c : InstrDefNode) :
    paramGroup (childVisit s c).node = paramGroup s.node := by
  rcases c with ⟨ipt, ch, pl⟩
  cases ipt <;> cases hn : s.node <;>
    simp only [childVisit, InstrDefNode.ipType, hn] <;>
    try (cases hty : s.type) <;>
    (repeat' split) <;> simp_all [paramGroup]

/-- The error flag is only raised together with a printed diagnostic, and
diagnostics are never retracted. -/
theorem childVisit_flagErr (s : StepState) (c : InstrDefNode) :
    ((childVisit s c).errorFlag = true → s.errorFlag = true ∨ (childVisit s c).errors ≠ [])
    ∧ (s.errors ≠ [] → (childVisit s c).errors ≠ []) := by
  rcases c with ⟨ipt, ch, pl⟩
  cases ipt <;> cases hn : s.node <;>
    simp only [childVisit, InstrDefNode.ipType, hn] <;>
    try (cases hty : s.type) <;>
    (repeat' split) <;> simp_all

/-- From a clean loop state, a child visit that prints a diagnostic either
leaves no accepted candidate (type/register mismatch arms) or raises the
error flag (numeric-width arms). -/
theorem childVisit_clean (s : StepState) (c : InstrDefNode)
    (he : s.errors = []) (hf : s.errorFlag = false) (hn0 : s.nextNode = none) :
    (childVisit s c).errors ≠ [] →
    (childVisit s c).nextNode = none ∨ (childVisit s c).errorFlag = true := by
  rcases c with ⟨ipt, ch, pl⟩
  cases ipt <;> cases hn : s.node <;>
    simp only [childVisit, InstrDefNode.ipType, hn] <;>
    try (cases hty : s.type) <;>
    (repeat' split) <;> simp_all

/-- The child loop is the identity when no child accepts the current AST
node kind. -/
theorem foldl_childVisit_id (children : List InstrDefNode) :
    ∀ s : StepState, (∀ c ∈ children, kindGroup c.ipType ≠ paramGroup s.node) →
    children.foldl childVisit s = s := by
  induction children with
  | nil => intro s _; rfl
  | cons c cs ih =>
    intro s h
    simp only [List.foldl_cons]
    rw [childVisit_group_id s c (h c (by simp))]
    exact ih s (fun c' hc' => h c' (by simp [hc']))

/-- Over a child list with pairwise-distinct accepted kinds (as built from
the generated table), a child loop that printed a diagnostic either ends
with no accepted candidate or with the error flag raised. -/
theorem foldl_childVisit_clean (children : List InstrDefNode) :
    ∀ s : StepState,
    nodupB (children.map (fun c => kindGroup c.ipType)) = true →
    s.errors = [] → s.errorFlag = false → s.nextNode = none →
    (children.foldl childVisit s).errors ≠ [] →
    (children.foldl childVisit s).nextNode = none
    ∨ (children.foldl childVisit s).errorFlag = true := by
  induction children with
  | nil =>
    intro s _ he _ _ hne
    exact absurd he hne
  | cons c cs ih =>
    intro s hnd he hf hn hne
    simp only [List.map_cons, nodupB, Bool.and_eq_true] at hnd
    by_cases hg : kindGroup c.ipType = paramGroup s.node
    · have htail : ∀ c' ∈ cs, kindGroup c'.ipType ≠ paramGroup (childVisit s c).node := by
        intro c' hc'
        rw [childVisit_node_group, ← hg]
        intro hc
        have h1 := hnd.1
        simp only [Bool.not_eq_true'] at h1
        simp at h1
        exact h1 c' hc' hc
      simp only [List.foldl_cons] at hne ⊢
      rw [foldl_childVisit_id cs _ htail] at hne ⊢
      exact childVisit_clean s c he hf hn hne
    · simp only [List.foldl_cons] at hne ⊢
      rw [childVisit_group_id s c hg] at hne ⊢
      exact ih s hnd.2 he hf hn hne

/-- The child loop raises the error flag only together with a diagnostic. -/
theorem foldl_childVisit_flagErr (children : List InstrDefNode) :
    ∀ s : StepState, (s.errorFlag = true → s.errors ≠ []) →
    (children.foldl childVisit s).errorFlag = true →
    (children.foldl childVisit s).errors ≠ [] := by
  induction children with
  | nil => intro s h; exact h
  | cons c cs ih =>
    intro s h
    simp only [List.foldl_cons]
    apply ih
    intro hcf
    rcases (childVisit_flagErr s c).1 hcf with h1 | h1
    · exact (childVisit_flagErr s c).2 (h h1)
    · exact h1

/-- The signature walk raises the error flag only together with a printed
diagnostic. -/
theorem walk_flagErr (params : List ASTParam) :
    ∀ (cur : InstrDefNode) (ty : Option Nat),
    (walk cur ty params).errorFlag = true → (walk cur ty params).errors ≠ [] := by
  induction params with
  | nil => intro cur ty h; simp [walk] at h
  | cons p rest ih =>
    intro cur ty
    simp only [walk]
    have hfe := foldl_childVisit_flagErr cur.Children
      ⟨none, ty, p, [], [], false, false⟩ (by intro h; exact Bool.noConfusion h)
    rcases hnn : (cur.Children.foldl childVisit
        ⟨none, ty, p, [], [], false, false⟩).nextNode with _ | nxt
    · simp only [hnn]
      exact hfe
    · simp only [hnn]
      cases rest with
      | nil => exact hfe
      | cons r1 r2 =>
        intro h
        simp only [Bool.or_eq_true] at h
        rcases h with h | h
        · intro hc
          rw [List.append_eq_nil] at hc
          exact hfe h hc.1
        · intro hc
          rw [List.append_eq_nil] at hc
          exact ih nxt _ h hc.2

/-- Over a kind-disjoint trie, a signature walk that printed a diagnostic
either fails to resolve a signature or raises the error flag. -/
theorem walk_errClean (params : List ASTParam) :
    ∀ (fuel : Nat) (cur : InstrDefNode) (ty : Option Nat),
    kindDisjointF fuel cur = true →
    (walk cur ty params).errors ≠ [] →
    (walk cur ty params).paramList = none ∨ (walk cur ty params).errorFlag = true := by
  induction params with
  | nil => intro fuel cur ty _ h; simp [walk] at h
  | cons p rest ih =>
    intro fuel cur ty hkd
    cases fuel with
    | zero => simp [kindDisjointF] at hkd
    | succ fuel =>
      simp only [kindDisjointF, Bool.and_eq_true] at hkd
      rw [List.all_eq_true] at hkd
      have hclean := foldl_childVisit_clean cur.Children
        ⟨none, ty, p, [], [], false, false⟩ hkd.1 rfl rfl rfl
      simp only [walk]
      rcases hnn : (cur.Children.foldl childVisit
          ⟨none, ty, p, [], [], false, false⟩).nextNode with _ | nxt
      · simp only [hnn]
        intro _
        left
        trivial
      · simp only [hnn]
        cases rest with
        | nil =>
          intro hne
          rcases hclean hne with h | h
          · rw [hnn] at h; exact Option.noConfusion h
          · exact .inr h
        | cons r1 r2 =>
          intro hne
          by_cases hse : (cur.Children.foldl childVisit
              ⟨none, ty, p, [], [], false, false⟩).errors = []
          · have hwe : (walk nxt (cur.Children.foldl childVisit
                ⟨none, ty, p, [], [], false, false⟩).type (r1 :: r2)).errors ≠ [] := by
              intro hc
              apply hne
              simp only [hse, hc, List.append_nil]
            have hmem : nxt ∈ cur.Children := by
              rcases foldl_childVisit_nextNode_mem cur.Children _ nxt hnn with h | h
              · exact h
              · exact absurd h (by simp)
            rcases ih fuel nxt _ (hkd.2 nxt hmem) hwe with h | h
            · exact .inl h
            · refine .inr ?_
              simp only [h, Bool.or_true]
          · rcases hclean hse with h | h
            · rw [hnn] at h; exact Option.noConfusion h
            · refine .inr ?_
              simp only [h, Bool.true_or]

/-- `typeCheckInstrParams` against the generated table returns `true`
exactly when it printed no diagnostic. -/
theorem tciP_ok_iff (instr : Instruction) :
    (typeCheckInstrParams InstrDefs instr).ok = true
    ↔ (typeCheckInstrParams InstrDefs instr).errors = [] := by
  have hkd : kindDisjointF 8 (InstrDefs.getD instr.ASMDefIndex (.mk .INT_TYPE [] none))
      = true := by
    by_cases hlt : instr.ASMDefIndex < InstrDefs.length
    · have hmem : InstrDefs.getD instr.ASMDefIndex (.mk .INT_TYPE [] none) ∈ InstrDefs := by
        rw [List.getD_eq_getElem _ _ hlt]
        exact List.getElem_mem _
      have h := instrDefs_kindDisjoint
      rw [List.all_eq_true] at h
      exact h _ hmem
    · rw [List.getD_eq_default _ _ (by omega)]
      decide
  unfold typeCheckInstrParams
  dsimp only
  by_cases hemp : instr.Params.isEmpty
  · rw [if_pos hemp]
    by_cases hch : (InstrDefs.getD instr.ASMDefIndex (.mk .INT_TYPE [] none)).Children.isEmpty
    · rw [if_pos hch]
      rcases hpl : (InstrDefs.getD instr.ASMDefIndex (.mk .INT_TYPE [] none)).ParamList
        with _ | pl
      · simp [hpl]
      · simp [hpl]
    · rw [if_neg hch]
      simp
  · rw [if_neg hemp]
    rcases hpl : (walk (InstrDefs.getD instr.ASMDefIndex (.mk .INT_TYPE [] none)) none
        instr.Params).paramList with _ | pl
    · simp only [hpl]
      simp
    · simp only [hpl]
      by_cases hef : (walk (InstrDefs.getD instr.ASMDefIndex (.mk .INT_TYPE [] none)) none
          instr.Params).errorFlag
      · rw [if_pos hef]
        have hne := walk_flagErr instr.Params _ none hef
        simp only
        constructor
        · intro h; exact Bool.noConfusion h
        · intro h; exact absurd h hne
      · rw [if_neg hef]
        have hwe : (walk (InstrDefs.getD instr.ASMDefIndex (.mk .INT_TYPE [] none)) none
            instr.Params).errors = [] := by
          by_contra hne
          rcases walk_errClean instr.Params 8 _ none hkd hne with h | h
          · rw [hpl] at h; exact Option.noConfusion h
          · exact hef h
        by_cases htvf : pl.Flags &&& INSTR_FLAG_TYPE_VARIANTS ≠ 0
        · rw [if_pos htvf]
          rcases hft : (walk (InstrDefs.getD instr.ASMDefIndex (.mk .INT_TYPE [] none)) none
              instr.Params).finalType with _ | dt
          · simp only [hft]
            exact ⟨fun _ => hwe, fun _ => by trivial⟩
          · simp only [hft]
            exact ⟨fun _ => hwe, fun _ => by trivial⟩
        · rw [if_neg htvf]
          exact ⟨fun _ => hwe, fun _ => by trivial⟩

/-- The variable-collection loop stays valid exactly while it printed no
diagnostic. -/
theorem tcvFold_iff (sec : ASTSectionType) (body : List ASTVariable) :
    ∀ (acc : Bool × List VarDeclaration × List String),
    (acc.1 = true ↔ acc.2.2 = []) →
    ((body.foldl (tcvStep sec) acc).1 = true ↔ (body.foldl (tcvStep sec) acc).2.2 = []) := by
  induction body with
  | nil => intro acc h; exact h
  | cons var rest ih =>
    intro acc h
    rcases acc with ⟨valid, decls, errs⟩
    simp only [List.foldl_cons]
    by_cases hdup : decls.any (fun d => d.Id = var.Id)
    · apply ih
      simp only [tcvStep, if_pos hdup]
      simp
    · apply ih
      simp only [tcvStep, if_neg hdup]
      simpa using h

/-- A section's variable stage is valid exactly when it printed no
diagnostic. -/
theorem secVarsStage_iff (decls : List VarDeclaration) (sec : ASTSectionType)
    (o : Option (List ASTVariable)) :
    ((secVarsStage decls sec o).1 = true ↔ (secVarsStage decls sec o).2.2 = []) := by
  rcases o with _ | body
  · simp [secVarsStage]
  · exact tcvFold_iff sec body (true, decls, []) (by simp)

/-- The Code-section walk of `typeCheck` raises its failure flag exactly
when it printed a diagnostic (duplicate label or failed instruction). -/
theorem tcStepFold_iff (body : List CodeNode) :
    ∀ (acc : TCAcc), (acc.flag = true ↔ acc.errors ≠ []) →
    ((body.foldl (tcStep InstrDefs) acc).flag = true
      ↔ (body.foldl (tcStep InstrDefs) acc).errors ≠ []) := by
  induction body with
  | nil => intro acc h; exact h
  | cons node rest ih =>
    intro acc h
    simp only [List.foldl_cons]
    apply ih
    rcases node with nm | i
    · by_cases hdup : acc.labelDefs.contains nm
      · simp only [tcStep, if_pos hdup]
        simp
      · simp only [tcStep, if_neg hdup]
        exact h
    · simp only [tcStep]
      have hio := tciP_ok_iff i
      constructor
      · intro hf hc
        rw [List.append_eq_nil] at hc
        rw [Bool.or_eq_true] at hf
        rcases hf with hf | hf
        · exact (h.mp hf) hc.1
        · rw [Bool.not_eq_true'] at hf
          exact absurd (hio.mpr hc.2) (by simp [hf])
      · intro hne
        rw [Bool.or_eq_true]
        by_cases ha : acc.errors = []
        · right
          have hie : (typeCheckInstrParams InstrDefs i).errors ≠ [] := by
            intro hc
            exact hne (by simp [ha, hc])
          rw [Bool.not_eq_true']
          cases hok : (typeCheckInstrParams InstrDefs i).ok
          · rfl
          · exact absurd (hio.mp hok) hie
        · exact .inl (h.mpr ha)

/-- The label-resolution loop marks failure exactly when it printed an
unresolved-label diagnostic. -/
theorem resFold_iff (ldefs : List String) (refs : List String) :
    ∀ (acc : List String × Bool), (acc.2 = true ↔ acc.1 ≠ []) →
    ((refs.foldl (resolveStep ldefs) acc).2 = true
      ↔ (refs.foldl (resolveStep ldefs) acc).1 ≠ []) := by
  induction refs with
  | nil => intro acc h; exact h
  | cons r rest ih =>
    intro acc h
    simp only [List.foldl_cons]
    by_cases hc : ldefs.contains r
    · simp only [resolveStep, if_pos hc]
      exact ih acc h
    · simp only [resolveStep, if_neg hc]
      apply ih
      simp

/-- The per-instruction variable-reference scan stays valid exactly while
it printed no diagnostic. -/
theorem cvrInner_iff (ps : List ASTParam) (varDecls : List VarDeclaration) :
    ∀ (acc : Bool × List String), (acc.1 = true ↔ acc.2 = []) →
    ((ps.foldl
      (fun acc p =>
        match p with
        | .regOffset ro =>
          match ro.Var with
          | some v =>
            if varDecls.any (fun d => d.Id = v) then acc
            else (false, acc.2 ++ ["Variable reference does not exist"])
          | none => acc
        | _ => acc) acc).1 = true
    ↔ (ps.foldl
      (fun acc p =>
        match p with
        | .regOffset ro =>
          match ro.Var with
          | some v =>
            if varDecls.any (fun d => d.Id = v) then acc
            else (false, acc.2 ++ ["Variable reference does not exist"])
          | none => acc
        | _ => acc) acc).2 = []) := by
  induction ps with
  | nil => intro acc h; exact h
  | cons p rest ih =>
    intro acc h
    simp only [List.foldl_cons]
    apply ih
    rcases p with dt | id | ro | nm | ⟨v, sgn, d⟩ | ⟨v, d⟩
    · exact h
    · exact h
    · rcases hv : ro.Var with _ | v
      · simp only [hv]; exact h
      · simp only [hv]
        by_cases hd : varDecls.any (fun d => d.Id = v)
        · rw [if_pos hd]; exact h
        · rw [if_neg hd]; simp
    · exact h
    · exact h
    · exact h

/-- `checkVarRefs` returns `true` exactly when it printed no diagnostic. -/
theorem checkVarRefs_iff (codeBody : List CodeNode) (varDecls : List VarDeclaration) :
    ((checkVarRefs varDecls codeBody).1 = true ↔ (checkVarRefs varDecls codeBody).2 = []) := by
  unfold checkVarRefs
  generalize hinit : ((true, []) : Bool × List String) = acc
  have hacc : acc.1 = true ↔ acc.2 = [] := by rw [← hinit]; simp
  clear hinit
  induction codeBody generalizing acc with
  | nil => exact hacc
  | cons node rest ih =>
    simp only [List.foldl_cons]
    apply ih
    rcases node with nm | i
    · exact hacc
    · exact cvrInner_iff i.Params varDecls acc hacc

/-- C1: `typeCheck` returns `true` exactly when zero errors were recorded
during the pass; recoverable errors do not stop the pass — a Code section
with two `main` labels yields `false` with exactly one duplicate-label
error, and a following unmatched instruction still gets checked, appending
its own diagnostic after the duplicate-label one. -/
theorem C1_resultIffNoErrors :
    (∀ f : ASTFileNode,
      ((typeCheck InstrDefs f).result = true ↔ (typeCheck InstrDefs f).errors = []))
    ∧ (typeCheck InstrDefs ⟨none, none, [.labelDef "main", .labelDef "main"]⟩).result = false
    ∧ (typeCheck InstrDefs ⟨none, none, [.labelDef "main", .labelDef "main"]⟩).errors
        = ["Label is already defined"]
    ∧ (typeCheck InstrDefs ⟨none, none, [.labelDef "main", .labelDef "main",
          .instr ⟨"push", 1, [.intNum 5 false 0], 0, 0⟩]⟩).errors
        = ["Label is already defined",
           "Error no matching parameter list found for instruction"] := by
  refine ⟨?_, by decide, by decide, by decide⟩
  intro f
  unfold typeCheck
  dsimp only
  rcases hS1 : secVarsStage [] .STATIC f.SecStatic with ⟨v1, d1, e1⟩
  have hs1iff : v1 = true ↔ e1 = [] := by
    have h := secVarsStage_iff [] .STATIC f.SecStatic
    rw [hS1] at h
    exact h
  dsimp only
  rcases hS2 : secVarsStage d1 .GLOBAL f.SecGlobal with ⟨v2, d2, e2⟩
  have hs2iff : v2 = true ↔ e2 = [] := by
    have h := secVarsStage_iff d1 .GLOBAL f.SecGlobal
    rw [hS2] at h
    exact h
  dsimp only
  by_cases hempty : f.SecCode.isEmpty
  · rw [if_pos hempty]
    simp
  · rw [if_neg hempty]
    by_cases hmain : hasMainLabel f.SecCode
    · rw [if_neg (by simp [hmain])]
      dsimp only
      rcases hW : f.SecCode.foldl (tcStep InstrDefs) ⟨[], [], [], false, []⟩
        with ⟨lds, lrs, errs, flg, code⟩
      have hwiff : flg = true ↔ errs ≠ [] := by
        have h := tcStepFold_iff f.SecCode ⟨[], [], [], false, []⟩ (by simp)
        rw [hW] at h
        exact h
      dsimp only
      rcases hR : lrs.foldl (resolveStep lds) (([] : List String), false) with ⟨res1, res2⟩
      have hriff : res2 = true ↔ res1 ≠ [] := by
        have h := resFold_iff lds lrs ([], false) (by simp)
        rw [hR] at h
        exact h
      dsimp only
      rcases hV : checkVarRefs d2 code with ⟨vr1, vr2⟩
      have hviff : vr1 = true ↔ vr2 = [] := by
        have h := checkVarRefs_iff code d2
        rw [hV] at h
        exact h
      dsimp only
      constructor
      · intro h
        simp only [Bool.not_eq_true', Bool.or_eq_false_iff] at h
        obtain ⟨⟨⟨⟨hv1, hv2⟩, hflg⟩, hres⟩, hvr⟩ := h
        rw [Bool.not_eq_false'] at hv1 hv2 hvr
        have he1 := hs1iff.mp hv1
        have he2 := hs2iff.mp hv2
        have herrs : errs = [] := by
          by_contra hc
          exact absurd (hwiff.mpr hc) (by simp [hflg])
        have hres1 : res1 = [] := by
          by_contra hc
          exact absurd (hriff.mpr hc) (by simp [hres])
        have hvr2 := hviff.mp hvr
        simp [he1, he2, herrs, hres1, hvr2]
      · intro h
        simp only [List.append_eq_nil] at h
        obtain ⟨⟨⟨⟨he1, he2⟩, herrs⟩, hres1⟩, hvr2⟩ := h
        have hv1 := hs1iff.mpr he1
        have hv2 := hs2iff.mpr he2
        have hflg : flg = false := by
          cases hfc : flg
          · rfl
          · exact absurd (hwiff.mp hfc) (by simp [herrs])
        have hres : res2 = false := by
          cases hrc : res2
          · rfl
          · exact absurd (hriff.mp hrc) (by simp [hres1])
        have hvr := hviff.mpr hvr2
        simp [hv1, hv2, hflg, hres, hvr]
    · rw [if_pos (by simp [Bool.not_eq_true'] ; exact Bool.not_eq_true _ ▸ (by simpa using hmain))]
      simp

/-- Witness for C1: the equivalence applied to a one-label file whose error
list is empty. -/
theorem C1_resultIffNoErrors_witness :
    (typeCheck InstrDefs ⟨none, none, [.labelDef "main"]⟩).result = true :=
  (C1_resultIffNoErrors.1 ⟨none, none, [.labelDef "main"]⟩).mpr (by decide)

/-- If the label-resolution loop ends without marking failure, every
reference it scanned is contained in the label table. -/
theorem resFold_false (ldefs : List String) (refs : List String) :
    ∀ acc : List String × Bool,
    (refs.foldl (resolveStep ldefs) acc).2 = false →
    acc.2 = false ∧ ∀ r ∈ refs, ldefs.contains r = true := by
  induction refs with
  | nil => intro acc h; exact ⟨h, by simp⟩
  | cons r rest ih =>
    intro acc h
    simp only [List.foldl_cons] at h
    by_cases hc : ldefs.contains r
    · rw [resolveStep, if_pos hc] at h
      obtain ⟨ha, hrest⟩ := ih acc h
      refine ⟨ha, ?_⟩
      intro r' hr'
      rcases List.mem_cons.mp hr' with he | he
      · exact he ▸ hc
      · exact hrest r' he
    · rw [resolveStep, if_neg hc] at h
      obtain ⟨ha, _⟩ := ih _ h
      exact absurd ha (by simp)

/-- Every name in the label table collected by the Code-section walk is the
name of a `LabelDef` node of the walked body. -/
theorem tcFold_labelDefs (defs : List InstrDefNode) (body : List CodeNode) :
    ∀ (acc : TCAcc) (r : String),
    r ∈ (body.foldl (tcStep defs) acc).labelDefs →
    r ∈ acc.labelDefs ∨ CodeNode.labelDef r ∈ body := by
  induction body with
  | nil => intro acc r h; exact .inl h
  | cons node rest ih =>
    intro acc r h
    simp only [List.foldl_cons] at h
    rcases ih _ r h with h1 | h1
    · rcases node with nm | i
      · by_cases hdup : acc.labelDefs.contains nm
        · simp only [tcStep, if_pos hdup] at h1
          try dsimp only at h1
          rcases List.mem_append.mp h1 with h2 | h2
          · exact .inl h2
          · simp at h2
            exact .inr (by simp [h2])
        · simp only [tcStep, if_neg hdup] at h1
          try dsimp only at h1
          rcases List.mem_append.mp h1 with h2 | h2
          · exact .inl h2
          · simp at h2
            exact .inr (by simp [h2])
      · simp only [tcStep] at h1
        exact .inl h1
    · exact .inr (by simp [h1])

/-- Every variable declaration collected by the variable loop either was
already in the table or names a variable of the walked section body. -/
theorem tcvFold_decls (sec : ASTSectionType) (body : List ASTVariable) :
    ∀ (acc : Bool × List VarDeclaration × List String) (d : VarDeclaration),
    d ∈ (body.foldl (tcvStep sec) acc).2.1 →
    d ∈ acc.2.1 ∨ d.Id ∈ body.map ASTVariable.Id := by
  induction body with
  | nil => intro acc d h; exact .inl h
  | cons var rest ih =>
    intro acc d h
    rcases acc with ⟨valid, decls, errs⟩
    simp only [List.foldl_cons] at h
    rcases ih _ d h with h1 | h1
    · by_cases hdup : decls.any (fun d => d.Id = var.Id)
      · simp only [tcvStep, if_pos hdup] at h1
        exact .inl h1
      · simp only [tcvStep, if_neg hdup] at h1
        try dsimp only at h1
        rcases List.mem_append.mp h1 with h2 | h2
        · exact .inl h2
        · simp at h2
          exact .inr (by simp [h2])
    · exact .inr (by simp [h1])

/-- Every declaration collected by a section stage either was already in
the table or names a variable of that section. -/
theorem secVarsStage_decls (decls : List VarDeclaration) (sec : ASTSectionType)
    (o : Option (List ASTVariable)) (d : VarDeclaration) :
    d ∈ (secVarsStage decls sec o).2.1 →
    d ∈ decls ∨ d.Id ∈ (o.getD []).map ASTVariable.Id := by
  rcases o with _ | body
  · intro h; exact .inl h
  · intro h
    exact tcvFold_decls sec body (true, decls, []) d h

/-- If the per-instruction reference scan ends valid, every register-offset
operand with a `Var` field names a declared variable. -/
theorem cvrInner_all (varDecls : List VarDeclaration) (ps : List ASTParam) :
    ∀ acc : Bool × List String,
    ((ps.foldl
      (fun acc p =>
        match p with
        | .regOffset ro =>
          match ro.Var with
          | some v =>
            if varDecls.any (fun d => d.Id = v) then acc
            else (false, acc.2 ++ ["Variable reference does not exist"])
          | none => acc
        | _ => acc) acc).1 = true) →
    acc.1 = true ∧ ∀ p ∈ ps, ∀ ro : RegisterOffset, p = .regOffset ro →
      ∀ v, ro.Var = some v → varDecls.any (fun d => d.Id = v) = true := by
  induction ps with
  | nil =>
    intro acc h
    exact ⟨h, by simp⟩
  | cons p rest ih =>
    intro acc h
    simp only [List.foldl_cons] at h
    have hstep := ih _ h
    have hheadacc : acc.1 = true ∧ (∀ ro : RegisterOffset, p = .regOffset ro →
        ∀ v, ro.Var = some v → varDecls.any (fun d => d.Id = v) = true) := by
      rcases p with dt | id | ro | nm | ⟨v0, sgn, d0⟩ | ⟨v0, d0⟩
      · exact ⟨hstep.1, by intro ro h'; exact absurd h' (by simp)⟩
      · exact ⟨hstep.1, by intro ro h'; exact absurd h' (by simp)⟩
      · rcases hv : ro.Var with _ | v
        · refine ⟨by simpa [hv] using hstep.1, ?_⟩
          intro ro' h' v' hv'
          injection h' with h'
          subst h'
          rw [hv] at hv'
          exact Option.noConfusion hv'
        · by_cases hd : varDecls.any (fun d => d.Id = v)
          · refine ⟨by simpa [hv, hd] using hstep.1, ?_⟩
            intro ro' h' v' hv'
            injection h' with h'
            subst h'
            rw [hv] at hv'
            injection hv' with hv'
            exact hv' ▸ hd
          · exfalso
            have := hstep.1
            simp [hv, hd] at this
      · exact ⟨hstep.1, by intro ro h'; exact absurd h' (by simp)⟩
      · exact ⟨hstep.1, by intro ro h'; exact absurd h' (by simp)⟩
      · exact ⟨hstep.1, by intro ro h'; exact absurd h' (by simp)⟩
    refine ⟨hheadacc.1, ?_⟩
    intro p' hp' ro h' v hv
    rcases List.mem_cons.mp hp' with he | he
    · exact hheadacc.2 ro (he ▸ h') v hv
    · exact hstep.2 p' he ro h' v hv

/-- The per-instruction reference scan never turns an invalid state back to
valid. -/
theorem cvrInner_false (varDecls : List VarDeclaration) (ps : List ASTParam) :
    ∀ acc : Bool × List String, acc.1 = false →
    ((ps.foldl
      (fun acc p =>
        match p with
        | .regOffset ro =>
          match ro.Var with
          | some v =>
            if varDecls.any (fun d => d.Id = v) then acc
            else (false, acc.2 ++ ["Variable reference does not exist"])
          | none => acc
        | _ => acc) acc).1 = false) := by
  induction ps with
  | nil => intro acc h; exact h
  | cons p rest ih =>
    intro acc h
    simp only [List.foldl_cons]
    apply ih
    rcases p with dt | id | ro | nm | ⟨v0, sgn, d0⟩ | ⟨v0, d0⟩
    · exact h
    · exact h
    · rcases hv : ro.Var with _ | v
      · simpa [hv] using h
      · by_cases hd : varDecls.any (fun d => d.Id = v)
        · simpa [hv, hd] using h
        · simp [hv, hd]
    · exact h
    · exact h
    · exact h

/-- The Code-section reference scan never turns an invalid state back to
valid. -/
theorem cvrOuter_false (varDecls : List VarDeclaration) (codeBody : List CodeNode) :
    ∀ acc : Bool × List String, acc.1 = false →
    ((codeBody.foldl
      (fun acc node =>
        match node with
        | .instr i =>
          i.Params.foldl
            (fun acc p =>
              match p with
              | .regOffset ro =>
                match ro.Var with
                | some v =>
                  if varDecls.any (fun d => d.Id = v) then acc
                  else (false, acc.2 ++ ["Variable reference does not exist"])
                | none => acc
              | _ => acc) acc
        | _ => acc) acc).1 = false) := by
  induction codeBody with
  | nil => intro acc h; exact h
  | cons node rest ih =>
    intro acc h
    simp only [List.foldl_cons]
    apply ih
    rcases node with nm | i
    · exact h
    · exact cvrInner_false varDecls i.Params acc h

/-- If `checkVarRefs` returns `true`, every register-offset operand with a
`Var` field anywhere in the Code body names a declared variable. -/
theorem checkVarRefs_all (varDecls : List VarDeclaration) (codeBody : List CodeNode) :
    (checkVarRefs varDecls codeBody).1 = true →
    ∀ node ∈ codeBody, ∀ i : Instruction, node = .instr i →
      ∀ p ∈ i.Params, ∀ ro : RegisterOffset, p = .regOffset ro →
      ∀ v, ro.Var = some v → varDecls.any (fun d => d.Id = v) = true := by
  unfold checkVarRefs
  generalize ((true, []) : Bool × List String) = acc
  induction codeBody generalizing acc with
  | nil =>
    intro _ node hmem
    exact absurd hmem (by simp)
  | cons node0 rest ih =>
    intro h node hmem i hni p hp ro hro v hv
    simp only [List.foldl_cons] at h
    rcases List.mem_cons.mp hmem with he | he
    · subst he
      rcases node with nm | i0
      · exact CodeNode.noConfusion hni
      · injection hni with hni
        subst hni
        by_cases hstep1 : (i0.Params.foldl
            (fun acc p =>
              match p with
              | .regOffset ro =>
                match ro.Var with
                | some v =>
                  if varDecls.any (fun d => d.Id = v) then acc
                  else (false, acc.2 ++ ["Variable reference does not exist"])
                | none => acc
              | _ => acc) acc).1 = true
        · exact (cvrInner_all varDecls i0.Params acc hstep1).2 p hp ro hro v hv
        · rw [Bool.not_eq_true] at hstep1
          have := cvrOuter_false varDecls rest _ hstep1
          exact Bool.noConfusion (this.symm.trans h)
    · exact ih _ h node he i hni p hp ro hro v hv

/-- A complete well-formed file: a Static string variable `msg`, a `main`
label, `lea` of `[msg]` into `r0`, and `jmp main`. -/
def c3File : ASTFileNode :=
  ⟨some [⟨"msg", 1, .str "hi"⟩], none,
   [.labelDef "main",
    .instr ⟨"lea", 13, [.regOffset ⟨0, none, none, 0, some "msg"⟩, .registerId 5], 0, 0⟩,
    .instr ⟨"jmp", 47, [.identifier "main"], 0, 0⟩]⟩

/-- C3: whenever `typeCheck` returns `true`, every collected label
reference names some `LabelDef` of the Code section's body, and every
`RegisterOffset` with its `Var` field set (in the checked code) names a
variable declared in the Static or Global section. -/
theorem C3_referencesResolve :
    (∀ f : ASTFileNode, (typeCheck InstrDefs f).result = true →
      (∀ r ∈ (typeCheck InstrDefs f).labelRefs, CodeNode.labelDef r ∈ f.SecCode)
      ∧ (∀ node ∈ (typeCheck InstrDefs f).code, ∀ i : Instruction, node = .instr i →
          ∀ p ∈ i.Params, ∀ ro : RegisterOffset, p = .regOffset ro →
          ∀ v, ro.Var = some v →
          v ∈ (f.SecStatic.getD []).map ASTVariable.Id
            ++ (f.SecGlobal.getD []).map ASTVariable.Id))
    ∧ (typeCheck InstrDefs c3File).result = true
    ∧ (typeCheck InstrDefs c3File).labelRefs = ["main"] := by
  refine ⟨?_, by decide, by decide⟩
  intro f hres
  unfold typeCheck at hres ⊢
  dsimp only at hres ⊢
  rcases hS1 : secVarsStage [] .STATIC f.SecStatic with ⟨v1, d1, e1⟩
  rw [hS1] at hres
  dsimp only at hres ⊢
  rcases hS2 : secVarsStage d1 .GLOBAL f.SecGlobal with ⟨v2, d2, e2⟩
  rw [hS2] at hres
  dsimp only at hres ⊢
  by_cases hempty : f.SecCode.isEmpty
  · rw [if_pos hempty] at hres
    exact absurd hres (by simp)
  · rw [if_neg hempty] at hres ⊢
    by_cases hmain : hasMainLabel f.SecCode
    · rw [if_neg (by simp [hmain])] at hres ⊢
      dsimp only at hres ⊢
      rcases hW : f.SecCode.foldl (tcStep InstrDefs) ⟨[], [], [], false, []⟩
        with ⟨lds, lrs, errs, flg, code⟩
      rw [hW] at hres
      dsimp only at hres ⊢
      rcases hR : lrs.foldl (resolveStep lds) (([] : List String), false) with ⟨res1, res2⟩
      rw [hR] at hres
      dsimp only at hres ⊢
      rcases hV : checkVarRefs d2 code with ⟨vr1, vr2⟩
      rw [hV] at hres
      dsimp only at hres ⊢
      simp only [Bool.not_eq_true', Bool.or_eq_false_iff] at hres
      obtain ⟨⟨⟨⟨hv1, hv2⟩, hflg⟩, hres2⟩, hvr⟩ := hres
      rw [Bool.not_eq_false'] at hvr
      refine ⟨?_, ?_⟩
      · intro r hr
        have hres2' : (lrs.foldl (resolveStep lds) (([] : List String), false)).2 = false := by
          rw [hR]
          exact hres2
        have hcont := (resFold_false lds lrs ([], false) hres2').2 r hr
        have hmem : r ∈ lds := by simpa using hcont
        have hrin : r ∈ (f.SecCode.foldl (tcStep InstrDefs)
            ⟨[], [], [], false, []⟩).labelDefs := by
          rw [hW]
          exact hmem
        rcases tcFold_labelDefs InstrDefs f.SecCode ⟨[], [], [], false, []⟩ r hrin
          with h1 | h1
        · exact absurd h1 (by simp)
        · exact h1
      · intro node hnode i hni p hp ro hro v hv
        have hcv : (checkVarRefs d2 code).1 = true := by
          rw [hV]
          exact hvr
        have hany := checkVarRefs_all d2 code hcv node hnode i hni p hp ro hro v hv
        rw [List.any_eq_true] at hany
        obtain ⟨d, hd2, hdid⟩ := hany
        simp only [decide_eq_true_eq] at hdid
        have hd2' : d ∈ (secVarsStage d1 .GLOBAL f.SecGlobal).2.1 := by
          rw [hS2]
          exact hd2
        rcases secVarsStage_decls d1 .GLOBAL f.SecGlobal d hd2' with h1 | h1
        · have hd1' : d ∈ (secVarsStage [] .STATIC f.SecStatic).2.1 := by
            rw [hS1]
            exact h1
          rcases secVarsStage_decls [] .STATIC f.SecStatic d hd1' with h2 | h2
          · exact absurd h2 (by simp)
          · rw [← hdid]
            exact List.mem_append.mpr (.inl h2)
        · rw [← hdid]
          exact List.mem_append.mpr (.inr h1)
    · rw [if_pos (by simp [hmain])] at hres
      exact absurd hres (by simp)

/-- Witness for C3: the universal part applied to the well-formed file
`c3File`, whose `typeCheck` result is `true`. -/
theorem C3_referencesResolve_witness :
    (∀ r ∈ (typeCheck InstrDefs c3File).labelRefs, CodeNode.labelDef r ∈ c3File.SecCode)
    ∧ (∀ node ∈ (typeCheck InstrDefs c3File).code, ∀ i : Instruction, node = .instr i →
        ∀ p ∈ i.Params, ∀ ro : RegisterOffset, p = .regOffset ro →
        ∀ v, ro.Var = some v →
        v ∈ (c3File.SecStatic.getD []).map ASTVariable.Id
          ++ (c3File.SecGlobal.getD []).map ASTVariable.Id) :=
  C3_referencesResolve.1 c3File (by decide)
